import Mathlib

/-!
Verification of the batch-orchestration and identity-management layer of
`pediatricIQphantoms` (`src/pediatricIQphantoms/make_phantoms.py`) against its
natural-language specification.

The Python code is shallowly embedded:

* Python strings are `List Char`; `str.split`, `str.replace`, `str.strip`,
  `str.upper`, `'sep'.join`, `int(...)`, `float(...)` and f-string number
  rendering are modelled by executable Lean functions with Python semantics
  (`pySplit`, `pyReplace`, `pyStrip`, `pyUpper`, `pyJoin`, `pyIntParse`,
  `pyFloatParse`, `natChars`).
* Python numbers used for dose/geometry arithmetic are embedded as `ℚ`
  (exact arithmetic); the age/diameter reference curve, which uses `x**1.5`,
  `x**0.5` and `exp`, is embedded over `ℝ`.
* Exceptions (`ValueError`, `TypeError`, `AssertionError`, `IndexError`,
  `KeyError`) are embedded with `Except`/`Option`.
* The external collaborators (the MIRT/Octave simulator, `pydicom`'s template
  file `CT_small.dcm`, and `pathlib`) are opaque per the spec; the template
  file only contributes the final numeric segments of its UIDs, which are
  carried as parameters (`TemplateDicom`), and the simulator only contributes
  volumes whose slice counts are carried as parameters.
-/

namespace PedIQ

/-- Convert a Lean string literal to the `List Char` representation used for
Python strings throughout this development. -/
def lit (s : String) : List Char := s.toList

/-! ### Python string and number primitives -/

/-- The character for a decimal digit `d` (`chr(48 + d)`). -/
def digitChar (d : ℕ) : Char := Char.ofNat (48 + d)

/-- Fuel-based rendering of a natural number to decimal characters,
most-significant digit first (the fuel is only a termination device). -/
def natCharsAux : ℕ → ℕ → List Char → List Char
  | 0, _, acc => acc
  | fuel+1, n, acc =>
    if n < 10 then digitChar n :: acc
    else natCharsAux fuel (n / 10) (digitChar (n % 10) :: acc)

/-- Python `str(n)` for a natural number `n`. -/
def natChars (n : ℕ) : List Char := natCharsAux (n + 1) n []

/-- Horner evaluation of a decimal digit string, the numeric content of
Python `int(...)` on a digit string. -/
def charsToNat (cs : List Char) : ℕ := cs.foldl (fun a c => 10 * a + (c.toNat - 48)) 0

/-- Python `f-string` formatting `'{n:03d}'`: the decimal form of `n`
left-padded with zeros to width at least 3. -/
def pad3 (n : ℕ) : List Char := List.replicate (3 - (natChars n).length) '0' ++ natChars n

/-- Worker for `pySplit`: scan left to right, cutting at each
non-overlapping occurrence of the separator `c0 :: sep'` (the fuel is only a
termination device and is always at least the length of the scanned list). -/
def pySplitGo (c0 : Char) (sep' : List Char) : ℕ → List Char → List (List Char)
  | _, [] => [[]]
  | 0, s => [s]
  | fuel+1, c :: rest =>
    if (c0 :: sep') <+: (c :: rest) then
      [] :: pySplitGo c0 sep' fuel (rest.drop sep'.length)
    else
      match pySplitGo c0 sep' fuel rest with
      | [] => [[c]]
      | h :: t => (c :: h) :: t

/-- Python `s.split(sep)` for a non-empty separator (Python raises on an
empty separator; that case is never exercised here). -/
def pySplit (sep s : List Char) : List (List Char) :=
  match sep with
  | [] => [s]
  | c0 :: sep' => pySplitGo c0 sep' s.length s

/-- Python `'sep'.join(parts)`. -/
def pyJoin (sep : List Char) : List (List Char) → List Char
  | [] => []
  | [x] => x
  | x :: xs => x ++ sep ++ pyJoin sep xs

/-- Python `s.replace(old, new)` (for non-empty `old`), which equals
`new.join(s.split(old))`. -/
def pyReplace (old new s : List Char) : List Char := pyJoin new (pySplit old s)

/-- Python `s.strip()`. -/
def pyStrip (cs : List Char) : List Char :=
  ((cs.dropWhile Char.isWhitespace).reverse.dropWhile Char.isWhitespace).reverse

/-- Python `s.upper()` (ASCII; all phantom names are ASCII). -/
def pyUpper (s : List Char) : List Char := s.map Char.toUpper

/-- Python `int(s)` on a string: strips whitespace, then requires a non-empty
run of decimal digits (signs never occur in the parsed fields here);
raising `ValueError` is modelled as `none`. -/
def pyIntParse (cs : List Char) : Option ℕ :=
  let t := pyStrip cs
  if t ≠ [] ∧ t.all Char.isDigit then some (charsToNat t) else none

/-- Python `float(s)` on a string: strips whitespace, then accepts
`digits` or `digits.digits` (the only shapes produced by this program);
raising `ValueError` is modelled as `none`. -/
def pyFloatParse (cs : List Char) : Option ℚ :=
  let t := pyStrip cs
  match pySplit (lit ".") t with
  | [a] => if a ≠ [] ∧ a.all Char.isDigit then some (charsToNat a) else none
  | [a, b] =>
    if a ≠ [] ∧ a.all Char.isDigit ∧ b ≠ [] ∧ b.all Char.isDigit then
      some ((charsToNat a : ℚ) + charsToNat b / (10 : ℚ) ^ b.length)
    else none
  | _ => none

/-- Python `str(d/10)` for an integral millimetre value `d` (the program's
diameters are integral millimetres): one digit after the decimal point. -/
def pyStrDiv10 (d : ℕ) : List Char := natChars (d / 10) ++ [ '.' ] ++ natChars (d % 10)

/-- Python `int(q)` for a rational: truncation toward zero. -/
def pyIntTrunc (q : ℚ) : ℤ := if q < 0 then -⌊-q⌋ else ⌊q⌋

/-- Python `round(q)` for a rational: nearest integer, ties to even. -/
def pyRound (q : ℚ) : ℤ :=
  let f := ⌊q⌋
  let r := q - f
  if r < 1/2 then f else if 1/2 < r then f + 1 else if Even f then f else f + 1

/-- `numpy.max` of a list of rationals (`numpy` raises on an empty array;
the batch orchestrator always passes a non-empty dose list). -/
def pyMax : List ℚ → ℚ
  | [] => 0
  | x :: xs => xs.foldl max x

/-- `pathlib.Path(name).stem`: the final path component without its last
dot-suffix (modelling the `pathlib` library service on file names). -/
def pathStem (name : List Char) : List Char :=
  let parts := pySplit (lit ".") name
  if parts.length ≤ 1 then name else pyJoin (lit ".") parts.dropLast

/-! ### `CTobj.__init__` phantom validation (make_phantoms.py lines 45-49) -/

/-- The legacy aliases normalised to `'CCT189'` (line 45). -/
def mitaAliases : List (List Char) := [lit "MITA-LCD", lit "MITA", lit "MITALCD", lit "LCD"]

/-- The supported phantom kinds (line 46). -/
def phantomOptions : List (List Char) := [lit "CTP404", lit "CCT189", lit "UNIFORM"]

/-- `CTobj.__init__` phantom handling (lines 45-49): normalise aliases, then
raise `ValueError` unless `phantom.upper()` is a supported kind, else store
the (possibly alias-normalised) string verbatim in `self.phantom`. -/
def ctobjPhantom (phantom : List Char) : Except (List Char) (List Char) :=
  let phantom := if phantom ∈ mitaAliases then lit "CCT189" else phantom
  if pyUpper phantom ∈ phantomOptions then .ok phantom
  else .error (lit "ValueError: not in available phantoms")

/-! ### UID derivation (make_phantoms.py lines 173-199) -/

/-- One UID update step (lines 174-176 and the analogous triples of lines):
`end = uid.split('.')[-1]; new_end = str(int(end) + offset);
uid = uid.replace(end, new_end)`. -/
def uidUpdate (uid : List Char) (offset : ℕ) : List Char :=
  let e := (pySplit (lit ".") uid).getLastD []
  let newEnd := natChars (charsToNat e + offset)
  pyReplace e newEnd uid

/-- The final dot-delimited segment of a UID string, read as a number. -/
def finalSeg (uid : List Char) : ℕ := charsToNat ((pySplit (lit ".") uid).getLastD [])

/-! ### `CTobj.write_to_dicom` (make_phantoms.py lines 126-210) -/

/-- Final numeric segments of the UIDs of the template DICOM file.

Modelled from the spec: the template file `CT_small.dcm` is shipped by the
external `pydicom` library and is re-read at the start of every
`write_to_dicom` call; only the final dot-delimited numeric segments of its
`SeriesInstanceUID`, `StudyInstanceUID`, `SOPInstanceUID` and
`MediaStorageSOPInstanceUID` matter to the identity claims, so the template
is carried as those four numbers. -/
structure TemplateDicom where
  seriesSeg : ℕ
  studySeg : ℕ
  sopSeg : ℕ
  mediaSeg : ℕ
deriving DecidableEq

/-- The attributes of a `CTobj` that `write_to_dicom` reads.  The
reconstruction and ground-truth volumes are produced by the external
simulator; only their slice counts (after the 2-D to 3-D promotion of lines
161 and 189) are observable in this layer, so they are carried as numbers. -/
structure CTobjData where
  patient_diameter : ℕ
  patientname : List Char
  patientid : ℕ
  studyid : ℕ
  seriesid : ℕ
  nsims : ℕ
  reconSlices : ℕ
  gtSlices : ℕ
  I0 : ℚ
deriving DecidableEq

/-- One per-slice output of `write_to_dicom`: the written file name and the
final numeric segments of the slice's SOP and media-storage UIDs. -/
structure SliceOut where
  fname : List Char
  instanceNumber : ℕ
  sopSeg : ℕ
  mediaSeg : ℕ
deriving DecidableEq

/-- The outputs of one `write_to_dicom` call that this layer observes. -/
structure WriteResult where
  patientName : List Char
  imageComments : List Char
  seriesSeg : ℕ
  studySeg : ℕ
  slices : List SliceOut
deriving DecidableEq

/-- The per-slice loop of `write_to_dicom` (lines 190-209).  The SOP and
media-storage UIDs are mutated in place: each iteration re-reads the final
segment of the *current* UID and adds `slice_idx + studyid + seriesid`
(lines 193-199), so the offsets accumulate across slices.  `k` is the current
slice index, `sop`/`media` the current final segments, and the last argument
the number of slices still to write. -/
def writeSlices (studyid seriesid nslices : ℕ) (stem ext : List Char) :
    ℕ → ℕ → ℕ → ℕ → List SliceOut
  | _, _, _, 0 => []
  | sop, media, k, n+1 =>
    let sop' := sop + k + studyid + seriesid
    let media' := media + k + studyid + seriesid
    { fname := if nslices > 1 then stem ++ [ '_' ] ++ pad3 k ++ ext else stem ++ ext
      instanceNumber := k + 1
      sopSeg := sop'
      mediaSeg := media' } ::
      writeSlices studyid seriesid nslices stem ext sop' media' (k + 1) n

/-- `CTobj.write_to_dicom` (lines 126-210), restricted to the fields this
layer observes.  `stem`/`ext` are `Path(fname).stem` and `Path(fname).suffix`.
The `assert nslices == self.nsims` of line 163 is modelled as an error; the
Series/Study UIDs get the template's final segment plus `studyid`
(lines 174-181); the written volume is the ground truth when
`groundtruth=True`, else the reconstruction (line 188), while the multi-slice
test of line 207 uses `nslices`, the *reconstruction's* slice count
(line 162). -/
def write_to_dicom (ct : CTobjData) (stem ext : List Char) (groundtruth : Bool)
    (tpl : TemplateDicom) : Except (List Char) WriteResult :=
  let nslices := ct.reconSlices
  if nslices ≠ ct.nsims then .error (lit "AssertionError: nslices == self.nsims") else
  let volSlices := if groundtruth then ct.gtSlices else ct.reconSlices
  .ok { patientName := ct.patientname
        imageComments := lit "effctive diameter [cm]: " ++ pyStrDiv10 ct.patient_diameter
        seriesSeg := tpl.seriesSeg + ct.studyid
        studySeg := tpl.studySeg + ct.studyid
        slices := writeSlices ct.studyid ct.seriesid nslices stem ext
          tpl.sopSeg tpl.mediaSeg 0 volSlices }

/-! ### `mirt_sim` (make_phantoms.py lines 213-235) -/

/-- The `lesion_diameter` argument: Python `False` (the default, "absent"),
a scalar `int`/`float`, or a list (a `numpy` array is converted to a list on
line 225 before any check, so it is also a `vec`). -/
inductive LesionDiameter where
  | absent : LesionDiameter
  | scalar (q : ℚ) : LesionDiameter
  | vec (l : List ℚ) : LesionDiameter
deriving DecidableEq

/-- Python truthiness of a `lesion_diameter` value (`if lesion_diameter:`,
line 226): `False` is falsy, a scalar is truthy iff non-zero, a list is
truthy iff non-empty. -/
def ldTruthy : LesionDiameter → Bool
  | .absent => false
  | .scalar q => decide (q ≠ 0)
  | .vec l => decide (l ≠ [])

/-- Whether a `lesion_diameter` value satisfies `isinstance(_, int | float)`. -/
def ldScalar : LesionDiameter → Bool
  | .absent => true
  | .scalar _ => true
  | .vec _ => false

/-- The errors `mirt_sim` can raise before invoking the simulator:
`ValueError` (the spec's InvalidParameter) from lines 228/230, and the
`TypeError` raised by `len(...)` on line 229 when `lesion_diameter` is a
scalar (both operands of `&` are evaluated eagerly). -/
inductive SimError where
  | invalidParameter (msg : List Char)
  | typeError (msg : List Char)
deriving DecidableEq

/-- The call made to the external Octave simulator: `mirt_sim` first runs
`octave.cd(...)` and then `octave.ct_sim(...)` or `octave.ct_sim_quiet(...)`
(lines 231-235); the existence of a `MirtCall` value means the external call
was made, with these arguments. -/
structure MirtCall where
  phantom : List Char
  patient_diameter : ℚ
  reference_diameter : ℚ
  lesion_diameter : LesionDiameter
  I0 : ℚ
  fov : ℚ
  fbp_kernel : List Char
  nsims : ℕ
  verboseEntry : Bool
deriving DecidableEq

/-- `mirt_sim` (lines 213-235): alias normalisation (line 219), the derived
field of view (lines 221-224), then — only when `lesion_diameter` is truthy —
the two shape checks.  Line 227 computes
`(phantom.upper() == 'CTP404') & (~isinstance(ld, int | float))`; on the
`bool` operands involved, `1 & ~1 = 0`, `1 & ~0 = 1` and `0 & _ = 0`, so the
bitwise expression coincides with `upper(phantom) = 'CTP404' and not scalar`.
Line 229 computes `(phantom == 'CCT189') & (len(ld) != 4)` with *eager*
evaluation of both operands, so `len(ld)` raises `TypeError` whenever `ld`
is a truthy scalar that survived line 227, regardless of the phantom. -/
def mirt_sim (phantom : List Char) (patient_diameter reference_diameter reference_fov : ℚ)
    (I0 : ℚ) (_fov : ℚ) (fbp_kernel : List Char) (nsims : ℕ)
    (lesion_diameter : LesionDiameter) (verbose : Bool) : Except SimError MirtCall :=
  let phantom := if phantom ∈ mitaAliases then lit "CCT189" else phantom
  let fov := if patient_diameter = reference_diameter then reference_fov
             else 11/10 * patient_diameter
  let call : MirtCall :=
    { phantom := phantom, patient_diameter := patient_diameter
      reference_diameter := reference_diameter, lesion_diameter := lesion_diameter
      I0 := I0, fov := fov, fbp_kernel := fbp_kernel, nsims := nsims
      verboseEntry := verbose }
  if ldTruthy lesion_diameter then
    if pyUpper phantom = lit "CTP404" ∧ ldScalar lesion_diameter = false then
      .error (.invalidParameter (lit "CTP lesion diameter must be length 1 int or float"))
    else
      match lesion_diameter with
      | .vec l =>
        if phantom = lit "CCT189" ∧ l.length ≠ 4 then
          .error (.invalidParameter (lit "CCT189 phantom expects a length 4 list"))
        else .ok call
      | _ => .error (.typeError (lit "object has no len"))
  else .ok call

/-- The `fov` argument recorded in a `mirt_sim` result (`0` on error; the
orchestration claims only inspect it on success). -/
def callFov : Except SimError MirtCall → ℚ
  | .ok c => c.fov
  | .error _ => 0

/-! ### Age/diameter reference curve (make_phantoms.py lines 237-285) -/

open Classical

/-- The fixed adult waist-circumference table (lines 237-245): a Python dict
with integer keys 30, 40, 60, 70, 80; a missing key raises `KeyError`,
modelled as `none`.  Lookup with a float key uses numeric equality, as in
Python. -/
noncomputable def adult_waist_circumferences_cm (k : ℝ) : Option ℝ :=
  if k = 30 then some 99.9
  else if k = 40 then some 102.8
  else if k = 60 then some 106.2
  else if k = 70 then some 106.6
  else if k = 80 then some 104.1
  else none

/-- Python `x % y` on floats for `y > 0` (`x - y*floor(x/y)`). -/
noncomputable def pyModReal (x y : ℝ) : ℝ := x - y * ⌊x / y⌋

/-- `round_to_decile` (line 248): `age - age % 10`. -/
noncomputable def round_to_decile (age : ℝ) : ℝ := age - pyModReal age 10

/-- `age_to_eff_diameter` (lines 251-265): the adult table for `age > 22`,
else the TG204 equation A-3 polynomial. -/
noncomputable def age_to_eff_diameter (age : ℝ) : Option ℝ :=
  if age > 22 then adult_waist_circumferences_cm (round_to_decile age)
  else
    let x := age
    let a : ℝ := 18.788598
    let b : ℝ := 0.19486455
    let c : ℝ := -1.060056
    let d : ℝ := -7.6244784
    some (a + b * x ^ (1.5 : ℝ) + c * x ^ (0.5 : ℝ) + d * Real.exp (-x))

/-- `pediatric_subgroup` (lines 268-278).  The ages 1, 5, 12, 22 all take the
polynomial branch of `age_to_eff_diameter`, so the `getD 0` default is never
used (see `age_to_eff_diameter_poly`). -/
noncomputable def pediatric_subgroup (diameter : ℝ) : List Char :=
  if diameter < (age_to_eff_diameter 1).getD 0 then lit "newborn"
  else if diameter ≥ (age_to_eff_diameter 1).getD 0 ∧ diameter < (age_to_eff_diameter 5).getD 0 then
    lit "infant"
  else if diameter ≥ (age_to_eff_diameter 5).getD 0 ∧ diameter < (age_to_eff_diameter 12).getD 0 then
    lit "child"
  else if diameter ≥ (age_to_eff_diameter 12).getD 0 ∧ diameter < (age_to_eff_diameter 22).getD 0 then
    lit "adolescent"
  else lit "adult"

/-- `subgroup_to_age` (lines 280-285); an unrecognised label falls through
and Python returns `None`. -/
def subgroup_to_age (group : List Char) : Option ℚ :=
  if group = lit "newborn" then some (1/12)
  else if group = lit "infant" then some 2
  else if group = lit "child" then some 12
  else if group = lit "adolescent" then some 21
  else if group = lit "adult" then some 39
  else none

/-! ### `dicom_meta_to_dataframe` (make_phantoms.py lines 288-312) -/

/-- The stored fields of a persisted DICOM file that the metadata extractor
reads, together with the two `pathlib` views of its path it uses
(`str(fname)` and `fname.stem`). -/
structure DicomFile where
  pathStr : List Char
  stem : List Char
  patientName : List Char
  imageComments : List Char
deriving DecidableEq

/-- The columns of the extractor's output row that the claims talk about
(the remaining columns are verbatim copies of stored fields). -/
structure MetaRecord where
  phantom : List Char
  diameter : ℚ
  dose : Option ℕ
  series : List Char
  subgroup : List Char
  age_est : Option ℚ
  repeatIdx : ℕ

/-- `dicom_meta_to_dataframe` (lines 288-312).  Note line 294: the pediatric
subgroup is computed as `pediatric_subgroup(18.2)` — a hard-coded constant,
not the diameter parsed from the file.  The phantom is the text after `'cm'`
in the patient name (line 297), the diameter the text after `':'` in the
comment field (line 298); a simulation file's dose is parsed from the path
segment after `'dose_'` (line 307) and its repeat index from the stem's
underscore suffix (line 308).  `IndexError`/`ValueError` during parsing are
modelled as `none`. -/
noncomputable def dicom_meta_to_dataframe (f : DicomFile) : Option MetaRecord :=
  let subgroup := pediatric_subgroup ((18.2 : ℝ))
  let age_est := subgroup_to_age subgroup
  match (pySplit (lit "cm") f.patientName).get? 1 with
  | none => none
  | some afterCm =>
    let phantom := pyStrip afterCm
    match (pySplit (lit ":") f.imageComments).get? 1 with
    | none => none
    | some afterColon =>
      match pyFloatParse afterColon with
      | none => none
      | some diameter =>
        if lit "noisefree" <:+ f.stem then
          some { phantom := phantom, diameter := diameter, dose := none
                 series := lit "noise free", subgroup := subgroup
                 age_est := age_est, repeatIdx := 0 }
        else if lit "groundtruth" <:+ f.stem then
          some { phantom := phantom, diameter := diameter, dose := none
                 series := lit "ground truth", subgroup := subgroup
                 age_est := age_est, repeatIdx := 0 }
        else
          match (pySplit (lit "dose_") f.pathStr).get? 1 with
          | none => none
          | some afterDose =>
            match pyIntParse ((pySplit (lit "/") afterDose).headD []) with
            | none => none
            | some dose =>
              let parts := pySplit (lit "_") f.stem
              if parts.length > 1 then
                match pyIntParse (parts.getD 1 []) with
                | none => none
                | some rep =>
                  some { phantom := phantom, diameter := diameter, dose := some dose
                         series := lit "simulation", subgroup := subgroup
                         age_est := age_est, repeatIdx := rep }
              else
                some { phantom := phantom, diameter := diameter, dose := some dose
                       series := lit "simulation", subgroup := subgroup
                       age_est := age_est, repeatIdx := 0 }

/-! ### `run_batch_sim` (make_phantoms.py lines 315-363) -/

/-- Which of the three per-(phantom, diameter) outputs a persisted file is. -/
inductive FileKind where
  | sweep : FileKind
  | noisefree : FileKind
  | groundtruthFile : FileKind
deriving DecidableEq

/-- One persisted file of a batch run: the stored fields and path views the
extractor will read (`dicom`), plus the construction-time data the claims
compare against (phantom/diameter/dose of the sweep combination, the identity
triple `(studyid, seriesid, sliceIdx)` and the UID final segments). -/
structure FileOut where
  dicom : DicomFile
  kind : FileKind
  phantomUsed : List Char
  diameterUsed : ℕ
  doseUsed : ℚ
  relDose : ℚ
  studyid : ℕ
  seriesid : ℕ
  sliceIdx : ℕ
  sopSeg : ℕ
  mediaSeg : ℕ

/-- The arguments of one `run_batch_sim` call.  `rootStr` is
`str(Path(os.path.abspath(image_directory)))`.  `gtSlices` is the slice count
of the ground-truth volume returned by the external simulator for the final
(noise-free) run of each (phantom, diameter) pair; the reconstruction volume
of a run has `nsims` slices (one slice per simulation repeat, per the spec's
Volume model). -/
structure BatchParams where
  rootStr : List Char
  models : List (List Char)
  diameters : List ℕ
  full_dose : ℚ
  dose_levels : List ℚ
  fbp_kernel : List Char
  nsims : ℕ
  tpl : TemplateDicom
  gtSlices : ℕ

/-- The diameter-level directory (with trailing `'/'`) under which a
(phantom, diameter) pair's outputs are written:
`image_directory / phantom / f'diameter{d}mm'`. -/
def diamDirStr (p : BatchParams) (phantom : List Char) (d : ℕ) : List Char :=
  p.rootStr ++ lit "/" ++ phantom ++ lit "/diameter" ++ natChars d ++ lit "mm/"

/-- The directory part (with trailing `'/'`) of a dose-sweep output path
(line 350):
`image_directory / phantom / f'diameter{d}mm' / f'dose_{int(rel_dose):03d}' /
f"{recon} {fbp_kernel.replace(',','').replace('.','')}"`, with
`recon = 'fbp'`. -/
def sweepDirStr (p : BatchParams) (phantom : List Char) (d : ℕ) (pct : ℕ) : List Char :=
  diamDirStr p phantom d ++ lit "dose_" ++ pad3 pct ++ lit "/fbp " ++
    pyReplace (lit ".") [] (pyReplace (lit ",") [] p.fbp_kernel) ++ lit "/"

/-- The files persisted by `ct.write_to_dicom(fname)` for one sweep
combination, as `FileOut` records: the write result's slices, placed under
`dirStr`, with the construction-time data attached. -/
def sweepFiles (p : BatchParams) (phantom : List Char) (d : ℕ) (patientid : ℕ)
    (patientname : List Char) (studyid : ℕ) (dose relDose : ℚ) : List FileOut :=
  let pct := (pyIntTrunc relDose).toNat
  let dirStr := sweepDirStr p phantom d pct
  let ct : CTobjData :=
    { patient_diameter := d, patientname := patientname, patientid := patientid
      studyid := studyid, seriesid := 0, nsims := p.nsims
      reconSlices := p.nsims, gtSlices := p.gtSlices, I0 := dose }
  match write_to_dicom ct patientname (lit ".dcm") false p.tpl with
  | .error _ => []
  | .ok w =>
    w.slices.map fun s =>
      { dicom := { pathStr := dirStr ++ s.fname, stem := pathStem s.fname
                   patientName := w.patientName, imageComments := w.imageComments }
        kind := .sweep, phantomUsed := phantom, diameterUsed := d
        doseUsed := dose, relDose := relDose
        studyid := studyid, seriesid := 0, sliceIdx := s.instanceNumber - 1
        sopSeg := s.sopSeg, mediaSeg := s.mediaSeg }

/-- The noise-free or ground-truth file written after the dose sweep of a
(phantom, diameter) pair (lines 352-360): `ct.nsims` is forced to 1, the
simulation is re-run (so the reconstruction has one slice), and the file is
written directly under the diameter directory with a `_noisefree` /
`_groundtruth` stem suffix; `ct.studyid` still holds the last dose index. -/
def auxFile (p : BatchParams) (phantom : List Char) (d : ℕ) (patientid : ℕ)
    (patientname : List Char) (lastStudyid : ℕ) (lastDose : ℚ)
    (suffix : List Char) (groundtruth : Bool) (kind : FileKind) : List FileOut :=
  let dirStr := diamDirStr p phantom d
  let ct : CTobjData :=
    { patient_diameter := d, patientname := patientname, patientid := patientid
      studyid := lastStudyid, seriesid := 0, nsims := 1
      reconSlices := 1, gtSlices := p.gtSlices, I0 := lastDose }
  match write_to_dicom ct (patientname ++ suffix) (lit ".dcm") groundtruth p.tpl with
  | .error _ => []
  | .ok w =>
    w.slices.map fun s =>
      { dicom := { pathStr := dirStr ++ s.fname, stem := pathStem s.fname
                   patientName := w.patientName, imageComments := w.imageComments }
        kind := kind, phantomUsed := phantom, diameterUsed := d
        doseUsed := lastDose, relDose := 100
        studyid := lastStudyid, seriesid := 0, sliceIdx := s.instanceNumber - 1
        sopSeg := s.sopSeg, mediaSeg := s.mediaSeg }

/-- `run_batch_sim` (lines 315-363), as the list of files it persists, in
order.  For each phantom in `models` and each diameter, the dose sweep runs
with `studyid` the dose's index and `seriesid` left at its default 0 (the
orchestrator never sets it), then one noise-free and one ground-truth file
are written reusing the mutated `CTobj` of the last dose.  The terminal
metadata-extraction step maps `dicom_meta_to_dataframe` over these files. -/
def run_batch_sim (p : BatchParams) : List FileOut :=
  let dose_level := p.dose_levels.map (fun r => p.full_dose * r)
  let dmax := pyMax dose_level
  (p.models.map fun phantom =>
    ((p.diameters.enum.map fun pd =>
      let d := pd.2
      let patientname := pyStrDiv10 d ++ lit " cm " ++ phantom
      (((dose_level.enum.map fun sd =>
        sweepFiles p phantom d pd.1 patientname sd.1 sd.2 (100 * sd.2 / dmax)).flatten) ++
       auxFile p phantom d pd.1 patientname (dose_level.length - 1)
         (dose_level.getLastD 0) (lit "_noisefree") false .noisefree ++
       auxFile p phantom d pd.1 patientname (dose_level.length - 1)
         (dose_level.getLastD 0) (lit "_groundtruth") true .groundtruthFile)).flatten)).flatten

/-- The dose-sweep output directory as the specification words it, with
`pct = round(100 * dose / max(dose_levels))` — a second definition following
the spec's text, to be compared with the source-derived `sweepDirStr`
(claim C7). -/
def sweepDirStrRound (p : BatchParams) (phantom : List Char) (d : ℕ) (relDose : ℚ) : List Char :=
  diamDirStr p phantom d ++ lit "dose_" ++ pad3 (pyRound relDose).toNat ++ lit "/fbp " ++
    pyReplace (lit ".") [] (pyReplace (lit ",") [] p.fbp_kernel) ++ lit "/"

instance : DecidableEq (Except SimError MirtCall)
  | .error a, .error b =>
    if h : a = b then .isTrue (by rw [h]) else .isFalse (by simp [h])
  | .error _, .ok _ => .isFalse (by simp)
  | .ok _, .error _ => .isFalse (by simp)
  | .ok a, .ok b =>
    if h : a = b then .isTrue (by rw [h]) else .isFalse (by simp [h])

/-! ### Concrete fixtures used by witnesses and counterexamples -/

/-- Illustrative template segments (the actual final segment of the
`CT_small.dcm` UIDs is `12322`). -/
def tpl0 : TemplateDicom := ⟨12322, 12322, 12322, 12322⟩

/-- A `CTobj` state as produced by the batch orchestrator for the second dose
of a two-dose sweep with two repeats. -/
def ctC2 : CTobjData :=
  { patient_diameter := 200, patientname := lit "20.0 cm CCT189", patientid := 0
    studyid := 1, seriesid := 0, nsims := 2, reconSlices := 2, gtSlices := 1, I0 := 300000 }

/-- The write result of `write_to_dicom ctC2 "n" ".dcm" false tpl0`. -/
def wC2 : WriteResult :=
  { patientName := ctC2.patientname
    imageComments := lit "effctive diameter [cm]: " ++ pyStrDiv10 ctC2.patient_diameter
    seriesSeg := tpl0.seriesSeg + ctC2.studyid
    studySeg := tpl0.studySeg + ctC2.studyid
    slices := writeSlices ctC2.studyid ctC2.seriesid ctC2.reconSlices (lit "n") (lit ".dcm")
      tpl0.sopSeg tpl0.mediaSeg 0 (if false then ctC2.gtSlices else ctC2.reconSlices) }

/-- A `CTobj` state whose reconstruction has a single slice (one repeat) but
whose ground-truth volume has two slices. -/
def ctC8 : CTobjData :=
  { patient_diameter := 200, patientname := lit "20.0 cm CCT189", patientid := 0
    studyid := 0, seriesid := 0, nsims := 1, reconSlices := 1, gtSlices := 2, I0 := 300000 }

/-- The write result of `write_to_dicom ctC8 "a" ".dcm" false tpl0`. -/
def wC8 : WriteResult :=
  { patientName := ctC8.patientname
    imageComments := lit "effctive diameter [cm]: " ++ pyStrDiv10 ctC8.patient_diameter
    seriesSeg := tpl0.seriesSeg + ctC8.studyid
    studySeg := tpl0.studySeg + ctC8.studyid
    slices := writeSlices ctC8.studyid ctC8.seriesid ctC8.reconSlices (lit "a") (lit ".dcm")
      tpl0.sopSeg tpl0.mediaSeg 0 (if false then ctC8.gtSlices else ctC8.reconSlices) }

/-- A batch run with two dose levels and two noise repeats per dose. -/
def batchTwo : BatchParams :=
  { rootStr := lit "/data", models := [lit "CCT189"], diameters := [200]
    full_dose := 300000, dose_levels := [1/2, 1], fbp_kernel := lit "hanning,2.05"
    nsims := 2, tpl := tpl0, gtSlices := 1 }

/-- A batch run whose lower dose fraction 7/16 yields the non-integral
percentage 43.75. -/
def batchFrac : BatchParams :=
  { rootStr := lit "/data", models := [lit "CCT189"], diameters := [200]
    full_dose := 300000, dose_levels := [7/16, 1], fbp_kernel := lit "hanning,2.05"
    nsims := 1, tpl := tpl0, gtSlices := 1 }

/-- A batch run with integral dose percentages and single repeats. -/
def batchOne : BatchParams :=
  { rootStr := lit "/data", models := [lit "CCT189"], diameters := [112]
    full_dose := 300000, dose_levels := [1/2, 1], fbp_kernel := lit "hanning,2.05"
    nsims := 1, tpl := tpl0, gtSlices := 1 }

/-- A persisted simulation file as stored by the orchestrator (20 cm CCT189,
100% dose). -/
def fileA : DicomFile :=
  { pathStr := lit "/data/CCT189/diameter200mm/dose_100/fbp hanning205/20.0 cm CCT189.dcm"
    stem := lit "20.0 cm CCT189"
    patientName := lit "20.0 cm CCT189"
    imageComments := lit "effctive diameter [cm]: 20.0" }

/-- A persisted simulation file with a very different stored diameter
(1 cm CTP404, 50% dose). -/
def fileB : DicomFile :=
  { pathStr := lit "/data/CTP404/diameter10mm/dose_050/fbp hanning205/1.0 cm CTP404.dcm"
    stem := lit "1.0 cm CTP404"
    patientName := lit "1.0 cm CTP404"
    imageComments := lit "effctive diameter [cm]: 1.0" }

/-! ## Lemmas: decimal rendering and parsing -/

lemma natCharsAux_indep (n : ℕ) : ∀ fuel acc, n < fuel →
    natCharsAux fuel n acc = natCharsAux (n + 1) n [] ++ acc := by
  induction n using Nat.strong_induction_on with
  | _ n ih =>
    intro fuel acc hfuel
    match fuel, hfuel with
    | f + 1, hfuel =>
      by_cases h10 : n < 10
      · simp [natCharsAux, h10]
      · have hdivlt : n / 10 < n := Nat.div_lt_self (by omega) (by omega)
        rw [natCharsAux, if_neg h10, ih (n / 10) hdivlt f _ (by omega)]
        conv_rhs => rw [natCharsAux, if_neg h10,
          ih (n / 10) hdivlt n _ (by omega)]
        simp

lemma natChars_of_lt (n : ℕ) (h : n < 10) : natChars n = [digitChar n] := by
  simp [natChars, natCharsAux, h]

lemma natChars_of_ge (n : ℕ) (h : 10 ≤ n) :
    natChars n = natChars (n / 10) ++ [digitChar (n % 10)] := by
  have hdivlt : n / 10 < n := Nat.div_lt_self (by omega) (by omega)
  rw [natChars, natCharsAux, if_neg (by omega),
    natCharsAux_indep (n / 10) n _ (by omega)]
  rfl

lemma natChars_ne_nil (n : ℕ) : natChars n ≠ [] := by
  by_cases h : n < 10
  · simp [natChars_of_lt n h]
  · simp [natChars_of_ge n (by omega)]

lemma digitChar_toNat (d : ℕ) (h : d < 10) : (digitChar d).toNat = 48 + d := by
  interval_cases d <;> decide

lemma digitChar_isDigit (d : ℕ) (h : d < 10) : (digitChar d).isDigit = true := by
  interval_cases d <;> decide

lemma mem_natChars_isDigit (n : ℕ) : ∀ c ∈ natChars n, c.isDigit = true := by
  induction n using Nat.strong_induction_on with
  | _ n ih =>
    intro c hc
    by_cases h : n < 10
    · rw [natChars_of_lt n h] at hc
      simp at hc
      exact hc ▸ digitChar_isDigit n h
    · rw [natChars_of_ge n (by omega)] at hc
      rcases List.mem_append.1 hc with h1 | h1
      · exact ih (n / 10) (Nat.div_lt_self (by omega) (by omega)) c h1
      · simp at h1
        exact h1 ▸ digitChar_isDigit _ (Nat.mod_lt _ (by omega))

lemma charsToNat_append (xs ys : List Char) :
    charsToNat (xs ++ ys) = ys.foldl (fun a c => 10 * a + (c.toNat - 48)) (charsToNat xs) := by
  simp [charsToNat, List.foldl_append]

lemma charsToNat_concat (xs : List Char) (c : Char) :
    charsToNat (xs ++ [c]) = 10 * charsToNat xs + (c.toNat - 48) := by
  simp [charsToNat_append]

lemma charsToNat_natChars (n : ℕ) : charsToNat (natChars n) = n := by
  induction n using Nat.strong_induction_on with
  | _ n ih =>
    by_cases h : n < 10
    · rw [natChars_of_lt n h]
      simp [charsToNat, digitChar_toNat n h]
    · rw [natChars_of_ge n (by omega), charsToNat_concat,
        ih (n / 10) (Nat.div_lt_self (by omega) (by omega)),
        digitChar_toNat _ (Nat.mod_lt _ (by omega))]
      omega

lemma charsToNat_zeros_append (m : ℕ) (ys : List Char) :
    charsToNat (List.replicate m '0' ++ ys) = charsToNat ys := by
  induction m with
  | zero => simp
  | succ m ihm =>
    have h0 : List.replicate (m + 1) '0' ++ ys = '0' :: (List.replicate m '0' ++ ys) := by
      simp [List.replicate_succ]
    rw [h0]
    show List.foldl (fun a c => 10 * a + (c.toNat - 48)) (10 * 0 + ('0'.toNat - 48))
      (List.replicate m '0' ++ ys) = charsToNat ys
    rw [show (10 * 0 + ('0'.toNat - 48)) = 0 from by decide]
    exact ihm

lemma charsToNat_pad3 (n : ℕ) : charsToNat (pad3 n) = n := by
  rw [pad3, charsToNat_zeros_append, charsToNat_natChars]

lemma mem_pad3_isDigit (n : ℕ) : ∀ c ∈ pad3 n, c.isDigit = true := by
  intro c hc
  rcases List.mem_append.1 hc with h1 | h1
  · simp at h1
    simp [h1.2]
  · exact mem_natChars_isDigit n c h1

lemma pad3_ne_nil (n : ℕ) : pad3 n ≠ [] := by
  simp [pad3, natChars_ne_nil n]

/-! ## Lemmas: `pySplit`, `pyJoin`, `pyStrip` -/

lemma pySplitGo_nil (c0 : Char) (sep' : List Char) (fuel : ℕ) :
    pySplitGo c0 sep' fuel [] = [[]] := by
  cases fuel <;> rfl

lemma pySplitGo_ne_nil (c0 : Char) (sep' : List Char) :
    ∀ fuel s, pySplitGo c0 sep' fuel s ≠ [] := by
  intro fuel
  induction fuel with
  | zero => intro s; cases s <;> simp [pySplitGo]
  | succ f ihf =>
    intro s
    cases s with
    | nil => simp [pySplitGo]
    | cons c rest =>
      rw [pySplitGo]
      split_ifs
      · simp
      · rcases h : pySplitGo c0 sep' f rest with _ | ⟨h1, t1⟩ <;> simp

lemma pySplit_ne_nil (sep s : List Char) : pySplit sep s ≠ [] := by
  cases sep with
  | nil => simp [pySplit]
  | cons c0 sep' => exact pySplitGo_ne_nil c0 sep' s.length s

lemma pySplitGo_fuel (c0 : Char) (sep' : List Char) :
    ∀ fuel fuel' s, s.length ≤ fuel → s.length ≤ fuel' →
      pySplitGo c0 sep' fuel s = pySplitGo c0 sep' fuel' s := by
  intro fuel
  induction fuel with
  | zero =>
    intro fuel' s hs _
    have : s = [] := List.length_eq_zero.1 (by omega)
    subst this
    rw [pySplitGo_nil, pySplitGo_nil]
  | succ f ihf =>
    intro fuel' s hs hs'
    cases s with
    | nil => rw [pySplitGo_nil, pySplitGo_nil]
    | cons c rest =>
      match fuel', hs' with
      | f' + 1, hs' =>
        simp only [List.length_cons] at hs hs'
        rw [pySplitGo, pySplitGo]
        split_ifs
        · rw [ihf f' (rest.drop sep'.length) (by simp only [List.length_drop]; omega)
            (by simp only [List.length_drop]; omega)]
        · rw [ihf f' rest (by omega) (by omega)]

lemma pySplit_cons (c0 : Char) (sep' : List Char) (c : Char) (rest : List Char) :
    pySplit (c0 :: sep') (c :: rest) =
      if (c0 :: sep') <+: (c :: rest) then
        [] :: pySplit (c0 :: sep') (rest.drop sep'.length)
      else
        match pySplit (c0 :: sep') rest with
        | [] => [[c]]
        | h :: t => (c :: h) :: t := by
  show pySplitGo c0 sep' (rest.length + 1) (c :: rest) = _
  rw [pySplitGo]
  split_ifs
  · rw [pySplitGo_fuel c0 sep' rest.length (rest.drop sep'.length).length
      (rest.drop sep'.length) (by simp) (le_refl _)]
    rfl
  · rfl

lemma infix_of_pre {sep s : List Char} (h : sep <+: s) : sep <:+: s := by
  obtain ⟨t, ht⟩ := h
  exact ⟨[], t, by simpa using ht⟩

lemma infix_cons_of {sep s : List Char} {c : Char} (h : sep <:+: s) : sep <:+: (c :: s) := by
  obtain ⟨u, v, huv⟩ := h
  exact ⟨c :: u, v, by simp [huv]⟩

lemma not_infix_singleton {c : Char} {s : List Char} (hc : c ∉ s) : ¬ [c] <:+: s := by
  rintro ⟨u, v, huv⟩
  exact hc (huv ▸ by simp)

lemma pySplit_no_sep (c0 : Char) (sep' s : List Char)
    (H : ¬ (c0 :: sep') <:+: s) : pySplit (c0 :: sep') s = [s] := by
  induction s with
  | nil => rfl
  | cons c rest ih =>
    have hpre : ¬ (c0 :: sep') <+: (c :: rest) := fun hp => H (infix_of_pre hp)
    have hrest : ¬ (c0 :: sep') <:+: rest := fun hinf => H (infix_cons_of hinf)
    rw [pySplit_cons, if_neg hpre, ih hrest]

lemma pySplit_append_chunk (c0 : Char) (sep' : List Char) :
    ∀ u v : List Char, (∀ i, i < u.length → ¬ (c0 :: sep') <+: ((u ++ v).drop i)) →
      ∃ h t, pySplit (c0 :: sep') (u ++ v) = (u ++ h) :: t ∧
        pySplit (c0 :: sep') v = h :: t := by
  intro u
  induction u with
  | nil =>
    intro v _
    rcases hsplit : pySplit (c0 :: sep') v with _ | ⟨h, t⟩
    · exact absurd hsplit (pySplit_ne_nil _ _)
    · exact ⟨h, t, by simpa using hsplit, rfl⟩
  | cons c u' ih =>
    intro v H
    have hpre : ¬ (c0 :: sep') <+: (c :: (u' ++ v)) := by
      have h0 := H 0 (by simp)
      simpa using h0
    obtain ⟨h, t, h1, h2⟩ := ih v (fun i hi => by
      have hi1 := H (i + 1) (by simp; omega)
      simpa using hi1)
    refine ⟨h, t, ?_, h2⟩
    rw [show (c :: u') ++ v = c :: (u' ++ v) from rfl, pySplit_cons, if_neg hpre, h1]
    rfl

lemma pySplit_around_sep (c0 : Char) (sep' u b : List Char)
    (H : ∀ i, i < u.length → ¬ (c0 :: sep') <+: ((u ++ (c0 :: sep') ++ b).drop i)) :
    pySplit (c0 :: sep') (u ++ (c0 :: sep') ++ b) = u :: pySplit (c0 :: sep') b := by
  obtain ⟨h, t, h1, h2⟩ := pySplit_append_chunk c0 sep' u ((c0 :: sep') ++ b)
    (fun i hi => by have := H i hi; simpa [List.append_assoc] using this)
  have hsep : pySplit (c0 :: sep') ((c0 :: sep') ++ b) = [] :: pySplit (c0 :: sep') b := by
    rw [show (c0 :: sep') ++ b = c0 :: (sep' ++ b) from rfl, pySplit_cons,
      if_pos ⟨b, by simp⟩]
    congr 1
    rw [List.drop_left]
  rw [hsep] at h2
  injection h2 with e1 e2
  subst e1
  subst e2
  rw [← List.append_assoc] at h1
  simpa using h1

lemma pySplit_single_append (c : Char) :
    ∀ x y : List Char, pySplit [c] (x ++ c :: y) = pySplit [c] x ++ pySplit [c] y := by
  intro x
  induction x with
  | nil =>
    intro y
    rw [List.nil_append, pySplit_cons, if_pos ⟨y, rfl⟩]
    simp [pySplit, pySplitGo_nil]
  | cons a x' ih =>
    intro y
    by_cases hac : a = c
    · subst hac
      rw [show (a :: x') ++ a :: y = a :: (x' ++ a :: y) from rfl, pySplit_cons,
        if_pos ⟨x' ++ a :: y, rfl⟩, pySplit_cons, if_pos ⟨x', rfl⟩]
      simp [ih]
    · have hpre1 : ¬ [a] <+: (a :: x') ∨ True := Or.inr trivial
      have hnp : ∀ z : List Char, ¬ [c] <+: (a :: z) := by
        rintro z ⟨t, ht⟩
        simp at ht
        exact hac ht.1.symm
      rw [show (a :: x') ++ c :: y = a :: (x' ++ c :: y) from rfl, pySplit_cons,
        if_neg (hnp _), ih, pySplit_cons, if_neg (hnp _)]
      rcases hsp : pySplit [c] x' with _ | ⟨h, t⟩
      · exact absurd hsp (pySplit_ne_nil _ _)
      · simp

lemma pyJoin_cons (sep h : List Char) (t : List (List Char)) (ht : t ≠ []) :
    pyJoin sep (h :: t) = h ++ sep ++ pyJoin sep t := by
  cases t with
  | nil => exact absurd rfl ht
  | cons t1 t2 => rfl

lemma pyJoin_split_single (c : Char) :
    ∀ x : List Char, pyJoin [c] (pySplit [c] x) = x := by
  intro x
  induction x with
  | nil => rfl
  | cons a x' ih =>
    by_cases hac : a = c
    · subst hac
      rw [pySplit_cons, if_pos ⟨x', rfl⟩]
      simp only [List.length_nil, List.drop_zero]
      rw [pyJoin_cons _ _ _ (pySplit_ne_nil _ _)]
      simpa using ih
    · have hnp : ¬ [c] <+: (a :: x') := by
        rintro ⟨t, ht⟩
        simp at ht
        exact hac ht.1.symm
      rw [pySplit_cons, if_neg hnp]
      rcases hsp : pySplit [c] x' with _ | ⟨h, t⟩
      · exact absurd hsp (pySplit_ne_nil _ _)
      · rw [hsp] at ih
        cases t with
        | nil =>
          simp only [pyJoin] at ih ⊢
          rw [ih]
        | cons t1 t2 =>
          rw [pyJoin_cons _ _ _ (by simp)] at ih ⊢
          simp [ih]

lemma pathStem_concat (x ext : List Char) (hd : '.' ∉ ext) :
    pathStem (x ++ '.' :: ext) = x := by
  have hlit : lit "." = ['.'] := rfl
  rw [pathStem, hlit, pySplit_single_append,
    pySplit_no_sep _ _ _ (not_infix_singleton hd)]
  have hne : pySplit ['.'] x ≠ [] := pySplit_ne_nil _ _
  have hlen : 1 ≤ (pySplit ['.'] x).length := List.length_pos.2 hne
  rw [if_neg (by simp only [List.length_append, List.length_cons, List.length_nil]; omega)]
  rw [List.dropLast_concat, pyJoin_split_single]

lemma head?_drop_get? (l : List Char) : ∀ i, (l.drop i).head? = l.get? i := by
  induction l with
  | nil => intro i; simp
  | cons a t ih => intro i; cases i <;> simp [ih]

lemma pre_head {c0 : Char} {sep' l : List Char} (h : (c0 :: sep') <+: l) :
    l.head? = some c0 := by
  obtain ⟨t, rfl⟩ := h
  rfl

lemma pre_of_pre_append {p x y : List Char} (h : p <+: x ++ y) (hlen : p.length ≤ x.length) :
    p <+: x := by
  have hp : p = x.take p.length := by
    have h1 : p = (x ++ y).take p.length := List.prefix_iff_eq_take.1 h
    have h2 : (x ++ y).take p.length = x.take p.length := by
      rw [List.take_append_eq_append_take, Nat.sub_eq_zero_of_le hlen, List.take_zero,
        List.append_nil]
    exact h1.trans h2
  exact List.prefix_iff_eq_take.2 hp

lemma noStart_of_head_notMem {c0 : Char} {sep' u : List Char} (hc : c0 ∉ u)
    (v : List Char) : ∀ i, i < u.length → ¬ (c0 :: sep') <+: ((u ++ v).drop i) := by
  intro i hi hpre
  have h1 : ((u ++ v).drop i).head? = some c0 := pre_head hpre
  rw [head?_drop_get?, List.get?_append hi] at h1
  exact hc (List.get?_mem h1)

/-- Transfer a "no occurrence of the separator starts inside `u`" condition
stated on `u ++ sep` to the same condition on `u ++ (sep ++ w)`. -/
lemma noStart_extend {c0 : Char} {sep' u : List Char} (w : List Char)
    (H : ∀ i, i < u.length → ¬ (c0 :: sep') <+: ((u ++ (c0 :: sep')).drop i)) :
    ∀ i, i < u.length → ¬ (c0 :: sep') <+: ((u ++ ((c0 :: sep') ++ w)).drop i) := by
  intro i hi hpre
  rw [← List.append_assoc, List.drop_append_eq_append_drop] at hpre
  have hi' : i - (u ++ (c0 :: sep')).length = 0 := by simp; omega
  rw [hi', List.drop_zero] at hpre
  refine H i hi (pre_of_pre_append hpre ?_)
  simp
  omega

/-! ## Lemmas: `pyStrip`, suffix tests, parsing of constructed fields -/

lemma dropWhile_eq_self_of_not {s : List Char} (h : ∀ c ∈ s, c.isWhitespace = false) :
    s.dropWhile Char.isWhitespace = s := by
  cases s with
  | nil => rfl
  | cons a t =>
    rw [List.dropWhile_cons, if_neg]
    simp [h a (by simp)]

lemma pyStrip_of_no_white {s : List Char} (h : ∀ c ∈ s, c.isWhitespace = false) :
    pyStrip s = s := by
  rw [pyStrip, dropWhile_eq_self_of_not h, dropWhile_eq_self_of_not]
  · simp
  · intro c hc
    exact h c (by simpa using hc)

lemma pyStrip_cons_space (s : List Char) : pyStrip (' ' :: s) = pyStrip s := by
  rw [pyStrip, pyStrip, List.dropWhile_cons, if_pos (by decide)]

lemma getLast?_of_suffix {s t : List Char} (h : s <:+ t) (hs : s ≠ []) :
    t.getLast? = s.getLast? := by
  obtain ⟨u, rfl⟩ := h
  exact List.getLast?_append_of_ne_nil u hs

lemma mem_of_getLast?_eq {l : List Char} {c : Char} (h : l.getLast? = some c) : c ∈ l := by
  obtain ⟨hne, he⟩ := List.mem_getLast?_eq_getLast (show c ∈ l.getLast? from by simp [h])
  exact he ▸ List.getLast_mem hne

lemma isDigit_not_white {c : Char} (h : c.isDigit = true) : c.isWhitespace = false := by
  by_contra hw
  have hw' : c.isWhitespace = true := by
    cases hx : c.isWhitespace
    · exact absurd hx hw
    · rfl
  have h4 := by simpa [Char.isWhitespace] using hw'
  rcases h4 with ((rfl | rfl) | rfl) | rfl <;> simp [Char.isDigit] at h

lemma mem_pyStrDiv10 (d : ℕ) {c : Char} (hc : c ∈ pyStrDiv10 d) :
    c.isDigit = true ∨ c = '.' := by
  rcases List.mem_append.1 hc with h1 | h1
  · rcases List.mem_append.1 h1 with h2 | h2
    · exact Or.inl (mem_natChars_isDigit _ c h2)
    · simp at h2
      exact Or.inr h2
  · exact Or.inl (mem_natChars_isDigit _ c h1)

lemma pyStrDiv10_no_white (d : ℕ) : ∀ c ∈ pyStrDiv10 d, c.isWhitespace = false := by
  intro c hc
  rcases mem_pyStrDiv10 d hc with h | rfl
  · exact isDigit_not_white h
  · decide

lemma natChars_all_digit (n : ℕ) : (natChars n).all Char.isDigit = true :=
  List.all_eq_true.2 (fun c hc => mem_natChars_isDigit n c hc)

lemma pad3_all_digit (n : ℕ) : (pad3 n).all Char.isDigit = true :=
  List.all_eq_true.2 (fun c hc => mem_pad3_isDigit n c hc)

lemma not_dot_mem_natChars (n : ℕ) : '.' ∉ natChars n := by
  intro h
  have := mem_natChars_isDigit n _ h
  simp [Char.isDigit] at this

/-- `pyFloatParse` on a string whose stripped form splits at one decimal
point into two digit runs. -/
lemma pyFloatParse_two (cs a b : List Char)
    (h1 : pySplit (lit ".") (pyStrip cs) = [a, b])
    (h2 : a ≠ []) (h3 : a.all Char.isDigit = true)
    (h4 : b ≠ []) (h5 : b.all Char.isDigit = true) :
    pyFloatParse cs = some ((charsToNat a : ℚ) + charsToNat b / (10 : ℚ) ^ b.length) := by
  simp only [pyFloatParse]
  rw [h1]
  show (if a ≠ [] ∧ a.all Char.isDigit = true ∧ b ≠ [] ∧ b.all Char.isDigit = true then
      some ((charsToNat a : ℚ) + charsToNat b / (10 : ℚ) ^ b.length) else none) = _
  rw [if_pos ⟨h2, h3, h4, h5⟩]

/-- `float(' ' ++ str(d/10))` recovers `d/10` exactly. -/
lemma pyFloatParse_strDiv10 (d : ℕ) :
    pyFloatParse (' ' :: pyStrDiv10 d) = some ((d : ℚ) / 10) := by
  have hstrip : pyStrip (' ' :: pyStrDiv10 d) = pyStrDiv10 d := by
    rw [pyStrip_cons_space, pyStrip_of_no_white (pyStrDiv10_no_white d)]
  have hsplit : pySplit (lit ".") (pyStrip (' ' :: pyStrDiv10 d)) =
      [natChars (d / 10), natChars (d % 10)] := by
    rw [hstrip, show lit "." = ['.'] from rfl, pyStrDiv10,
      show natChars (d / 10) ++ [ '.' ] ++ natChars (d % 10)
        = natChars (d / 10) ++ '.' :: natChars (d % 10) from by simp,
      pySplit_single_append,
      pySplit_no_sep _ _ _ (not_infix_singleton (not_dot_mem_natChars _)),
      pySplit_no_sep _ _ _ (not_infix_singleton (not_dot_mem_natChars _))]
    rfl
  rw [pyFloatParse_two _ _ _ hsplit (natChars_ne_nil _) (natChars_all_digit _)
    (natChars_ne_nil _) (natChars_all_digit _)]
  congr 1
  rw [charsToNat_natChars, charsToNat_natChars]
  have hlen : (natChars (d % 10)).length = 1 := by
    rw [natChars_of_lt _ (Nat.mod_lt _ (by omega))]
    rfl
  rw [hlen]
  have hmod : (10 : ℚ) * (d / 10 : ℕ) + (d % 10 : ℕ) = (d : ℚ) := by
    exact_mod_cast Nat.div_add_mod d 10
  field_simp
  linarith [hmod]

/-- `int(pad3 n)` recovers `n`. -/
lemma pyIntParse_pad3 (n : ℕ) : pyIntParse (pad3 n) = some n := by
  have hstrip : pyStrip (pad3 n) = pad3 n :=
    pyStrip_of_no_white (fun c hc => isDigit_not_white (mem_pad3_isDigit n c hc))
  rw [pyIntParse]
  simp only [hstrip]
  rw [if_pos ⟨pad3_ne_nil n, pad3_all_digit n⟩, charsToNat_pad3]

/-- Splitting a constructed patient name on `'cm'`: provided the phantom
string contains no occurrence of `'cm'` (with the preceding space) the second
chunk is `' ' ++ phantom`. -/
lemma patientName_split (d : ℕ) (phantom : List Char)
    (Hcm : ¬ lit "cm" <:+: (' ' :: phantom)) :
    pySplit (lit "cm") (pyStrDiv10 d ++ lit " cm " ++ phantom) =
      [pyStrDiv10 d ++ [' '], ' ' :: phantom] := by
  have hshape : pyStrDiv10 d ++ lit " cm " ++ phantom =
      (pyStrDiv10 d ++ [' ']) ++ ('c' :: ['m']) ++ (' ' :: phantom) := by
    rw [show lit " cm " = [' '] ++ ('c' :: ['m']) ++ [' '] from rfl]
    simp
  have hc_notmem : 'c' ∉ pyStrDiv10 d ++ [' '] := by
    intro hc
    rcases List.mem_append.1 hc with h1 | h1
    · rcases mem_pyStrDiv10 d h1 with h2 | h2 <;> simp [Char.isDigit] at h2
    · simp at h1
  rw [show lit "cm" = 'c' :: ['m'] from rfl] at Hcm ⊢
  rw [hshape, pySplit_around_sep _ _ _ _ (fun i hi => by
    rw [List.append_assoc]
    exact noStart_of_head_notMem hc_notmem _ i hi)]
  rw [pySplit_no_sep _ _ _ Hcm]

/-- Splitting a constructed image-comment field on `':'`: the second chunk is
`' ' ++ str(d/10)`. -/
lemma imageComments_split (d : ℕ) :
    pySplit (lit ":") (lit "effctive diameter [cm]: " ++ pyStrDiv10 d) =
      [lit "effctive diameter [cm]", ' ' :: pyStrDiv10 d] := by
  have hshape : lit "effctive diameter [cm]: " ++ pyStrDiv10 d =
      lit "effctive diameter [cm]" ++ (':' :: ([] : List Char)) ++ (' ' :: pyStrDiv10 d) := by
    rw [show lit "effctive diameter [cm]: " = lit "effctive diameter [cm]" ++ [':'] ++ [' ']
      from rfl]
    simp
  have hcolon : ':' ∉ lit "effctive diameter [cm]" := by decide
  rw [show lit ":" = ':' :: ([] : List Char) from rfl, hshape,
    pySplit_around_sep _ _ _ _ (fun i hi => by
      rw [List.append_assoc]
      exact noStart_of_head_notMem hcolon _ i hi)]
  have hnotmem : ':' ∉ ' ' :: pyStrDiv10 d := by
    intro h
    rcases List.mem_cons.1 h with h1 | h1
    · exact absurd h1 (by decide)
    · rcases mem_pyStrDiv10 d h1 with h2 | h2 <;> simp [Char.isDigit] at h2
  rw [pySplit_no_sep _ _ _ (not_infix_singleton hnotmem)]

/-! ## Lemmas: the `write_to_dicom` slice loop -/

lemma writeSlices_length (studyid seriesid nslices : ℕ) (stem ext : List Char) :
    ∀ n sop media k, (writeSlices studyid seriesid nslices stem ext sop media k n).length = n := by
  intro n
  induction n with
  | zero => intro sop media k; rfl
  | succ n ihn => intro sop media k; simp [writeSlices, ihn]

lemma writeSlices_getElem (studyid seriesid nslices : ℕ) (stem ext : List Char) :
    ∀ n sop media k i, i < n →
      (writeSlices studyid seriesid nslices stem ext sop media k n)[i]? = some
        { fname := if nslices > 1 then stem ++ [ '_' ] ++ pad3 (k + i) ++ ext else stem ++ ext
          instanceNumber := k + i + 1
          sopSeg := sop + ∑ j ∈ Finset.range (i + 1), (k + j + studyid + seriesid)
          mediaSeg := media + ∑ j ∈ Finset.range (i + 1), (k + j + studyid + seriesid) } := by
  intro n
  induction n with
  | zero => intro sop media k i hi; omega
  | succ n ihn =>
    intro sop media k i hi
    cases i with
    | zero =>
      simp only [writeSlices, List.getElem?_cons_zero, Option.some.injEq, SliceOut.mk.injEq,
        zero_add, Finset.sum_range_one, Nat.add_zero]
      exact ⟨trivial, trivial, by omega, by omega⟩
    | succ i =>
      have hstep : (writeSlices studyid seriesid nslices stem ext sop media k (n + 1))[i + 1]? =
          (writeSlices studyid seriesid nslices stem ext
            (sop + k + studyid + seriesid) (media + k + studyid + seriesid) (k + 1) n)[i]? := by
        simp [writeSlices]
      rw [hstep, ihn _ _ _ i (by omega)]
      have hshift : ∑ j ∈ Finset.range (i + 2), (k + j + studyid + seriesid)
          = (k + 0 + studyid + seriesid)
            + ∑ j ∈ Finset.range (i + 1), (k + (j + 1) + studyid + seriesid) := by
        rw [Finset.sum_range_succ' (fun j => k + j + studyid + seriesid) (i + 1)]
        omega
      have hc : ∀ j : ℕ, k + 1 + j + studyid + seriesid = k + (j + 1) + studyid + seriesid :=
        fun j => by omega
      simp only [Option.some.injEq, SliceOut.mk.injEq]
      refine ⟨?_, by omega, ?_, ?_⟩
      · rw [show k + 1 + i = k + (i + 1) from by omega]
      · rw [show i + 1 + 1 = i + 2 from rfl, hshift]
        simp only [hc]
        omega
      · rw [show i + 1 + 1 = i + 2 from rfl, hshift]
        simp only [hc]
        omega

lemma write_to_dicom_ok (ct : CTobjData) (stem ext : List Char) (g : Bool)
    (tpl : TemplateDicom) (h : ct.reconSlices = ct.nsims) :
    write_to_dicom ct stem ext g tpl = .ok
      { patientName := ct.patientname
        imageComments := lit "effctive diameter [cm]: " ++ pyStrDiv10 ct.patient_diameter
        seriesSeg := tpl.seriesSeg + ct.studyid
        studySeg := tpl.studySeg + ct.studyid
        slices := writeSlices ct.studyid ct.seriesid ct.reconSlices stem ext
          tpl.sopSeg tpl.mediaSeg 0 (if g then ct.gtSlices else ct.reconSlices) } := by
  rw [write_to_dicom, if_neg (by simp [h])]

/-- Membership form of `writeSlices_getElem` with starting slice index 0:
every written slice is the `i`-th one, with the accumulated UID offset
`∑ j ≤ i, (j + studyid + seriesid)`. -/
lemma mem_writeSlices {studyid seriesid nslices : ℕ} {stem ext : List Char}
    {n : ℕ} {sop media : ℕ} {s : SliceOut}
    (hs : s ∈ writeSlices studyid seriesid nslices stem ext sop media 0 n) :
    ∃ i, i < n ∧ s =
      { fname := if nslices > 1 then stem ++ [ '_' ] ++ pad3 i ++ ext else stem ++ ext
        instanceNumber := i + 1
        sopSeg := sop + ∑ j ∈ Finset.range (i + 1), (j + studyid + seriesid)
        mediaSeg := media + ∑ j ∈ Finset.range (i + 1), (j + studyid + seriesid) } := by
  obtain ⟨i, hi, hget⟩ := List.getElem_of_mem hs
  rw [writeSlices_length] at hi
  refine ⟨i, hi, ?_⟩
  have h1 := writeSlices_getElem studyid seriesid nslices stem ext n sop media 0 i hi
  rw [List.getElem?_eq_getElem (by rw [writeSlices_length]; exact hi), hget] at h1
  have h2 : ∀ j, 0 + j + studyid + seriesid = j + studyid + seriesid := by omega
  simpa [h2] using h1

/-! ## Lemmas: membership in the batch run's file list -/

lemma mem_sweepFiles {p : BatchParams} {phantom : List Char} {d pid : ℕ}
    {pname : List Char} {studyid : ℕ} {dose rel : ℚ} {f : FileOut}
    (hf : f ∈ sweepFiles p phantom d pid pname studyid dose rel) :
    ∃ i, i < p.nsims ∧ f =
      { dicom := { pathStr := sweepDirStr p phantom d (pyIntTrunc rel).toNat ++
                     (if p.nsims > 1 then pname ++ [ '_' ] ++ pad3 i ++ lit ".dcm"
                      else pname ++ lit ".dcm")
                   stem := pathStem (if p.nsims > 1 then pname ++ [ '_' ] ++ pad3 i ++ lit ".dcm"
                      else pname ++ lit ".dcm")
                   patientName := pname
                   imageComments := lit "effctive diameter [cm]: " ++ pyStrDiv10 d }
        kind := .sweep, phantomUsed := phantom, diameterUsed := d
        doseUsed := dose, relDose := rel
        studyid := studyid, seriesid := 0, sliceIdx := i
        sopSeg := p.tpl.sopSeg + ∑ j ∈ Finset.range (i + 1), (j + studyid)
        mediaSeg := p.tpl.mediaSeg + ∑ j ∈ Finset.range (i + 1), (j + studyid) } := by
  rw [sweepFiles] at hf
  rw [write_to_dicom_ok _ _ _ _ _ rfl] at hf
  simp only [List.mem_map] at hf
  obtain ⟨s, hs, rfl⟩ := hf
  obtain ⟨i, hi, rfl⟩ := mem_writeSlices (by simpa using hs)
  refine ⟨i, hi, ?_⟩
  have hsum : ∀ j : ℕ, j + studyid + 0 = j + studyid := fun j => by omega
  simp only [hsum, Nat.add_sub_cancel]

lemma mem_auxFile {p : BatchParams} {phantom : List Char} {d pid : ℕ}
    {pname : List Char} {lastStudyid : ℕ} {lastDose : ℚ} {suffix : List Char}
    {g : Bool} {kind : FileKind} {f : FileOut}
    (hf : f ∈ auxFile p phantom d pid pname lastStudyid lastDose suffix g kind) :
    ∃ i, i < (if g then p.gtSlices else 1) ∧ f =
      { dicom := { pathStr := diamDirStr p phantom d ++
                     (if (1:ℕ) > 1 then (pname ++ suffix) ++ [ '_' ] ++ pad3 i ++ lit ".dcm"
                      else (pname ++ suffix) ++ lit ".dcm")
                   stem := pathStem (if (1:ℕ) > 1 then (pname ++ suffix) ++ [ '_' ] ++ pad3 i ++ lit ".dcm"
                      else (pname ++ suffix) ++ lit ".dcm")
                   patientName := pname
                   imageComments := lit "effctive diameter [cm]: " ++ pyStrDiv10 d }
        kind := kind, phantomUsed := phantom, diameterUsed := d
        doseUsed := lastDose, relDose := 100
        studyid := lastStudyid, seriesid := 0, sliceIdx := i
        sopSeg := p.tpl.sopSeg + ∑ j ∈ Finset.range (i + 1), (j + lastStudyid)
        mediaSeg := p.tpl.mediaSeg + ∑ j ∈ Finset.range (i + 1), (j + lastStudyid) } := by
  rw [auxFile] at hf
  rw [write_to_dicom_ok _ _ _ _ _ rfl] at hf
  simp only [List.mem_map] at hf
  obtain ⟨s, hs, rfl⟩ := hf
  obtain ⟨i, hi, rfl⟩ := mem_writeSlices (by simpa using hs)
  refine ⟨i, by simpa using hi, ?_⟩
  have hsum : ∀ j : ℕ, j + lastStudyid + 0 = j + lastStudyid := fun j => by omega
  simp only [hsum, Nat.add_sub_cancel]

lemma mem_run_batch_sim {p : BatchParams} {f : FileOut} (hf : f ∈ run_batch_sim p) :
    ∃ phantom ∈ p.models, ∃ pd ∈ p.diameters.enum,
      (∃ sd ∈ (p.dose_levels.map (fun r => p.full_dose * r)).enum,
        f ∈ sweepFiles p phantom pd.2 pd.1 (pyStrDiv10 pd.2 ++ lit " cm " ++ phantom)
          sd.1 sd.2 (100 * sd.2 / pyMax (p.dose_levels.map (fun r => p.full_dose * r)))) ∨
      f ∈ auxFile p phantom pd.2 pd.1 (pyStrDiv10 pd.2 ++ lit " cm " ++ phantom)
        ((p.dose_levels.map (fun r => p.full_dose * r)).length - 1)
        ((p.dose_levels.map (fun r => p.full_dose * r)).getLastD 0)
        (lit "_noisefree") false .noisefree ∨
      f ∈ auxFile p phantom pd.2 pd.1 (pyStrDiv10 pd.2 ++ lit " cm " ++ phantom)
        ((p.dose_levels.map (fun r => p.full_dose * r)).length - 1)
        ((p.dose_levels.map (fun r => p.full_dose * r)).getLastD 0)
        (lit "_groundtruth") true .groundtruthFile := by
  simp only [run_batch_sim] at hf
  obtain ⟨l1, hl1, hf1⟩ := List.mem_flatten.1 hf
  obtain ⟨phantom, hph, heq1⟩ := List.mem_map.1 hl1
  subst heq1
  obtain ⟨l2, hl2, hf2⟩ := List.mem_flatten.1 hf1
  obtain ⟨pd, hpd, heq2⟩ := List.mem_map.1 hl2
  subst heq2
  refine ⟨phantom, hph, pd, hpd, ?_⟩
  rcases List.mem_append.1 hf2 with h12 | h3
  · rcases List.mem_append.1 h12 with h1 | h2
    · left
      obtain ⟨l4, hl4, hf4⟩ := List.mem_flatten.1 h1
      obtain ⟨sd, hsd, heq4⟩ := List.mem_map.1 hl4
      subst heq4
      exact ⟨sd, hsd, hf4⟩
    · right; left; exact h2
  · right; right; exact h3

/-! ## Lemmas: numeric conversions and the extractor's constant subgroup -/

lemma pyIntTrunc_natCast (n : ℕ) : pyIntTrunc (n : ℚ) = n := by
  rw [pyIntTrunc, if_neg (not_lt.2 (by positivity)), Int.floor_natCast]

lemma pyRound_natCast (n : ℕ) : pyRound (n : ℚ) = n := by
  simp only [pyRound, Int.floor_natCast]
  rw [if_pos (by push_cast; norm_num)]

/-- Every successful extraction carries the subgroup computed from the
hard-coded diameter 18.2, whatever the file's stored fields. -/
lemma subgroup_of_extract {f : DicomFile} {r : MetaRecord}
    (h : dicom_meta_to_dataframe f = some r) :
    r.subgroup = pediatric_subgroup ((18.2 : ℝ)) := by
  simp only [dicom_meta_to_dataframe] at h
  repeat' split at h
  all_goals try (rw [Option.some.injEq] at h; subst h; rfl)
  all_goals exact Option.noConfusion h

/-! ## Claim theorems -/

/-- C6: the claim says the Metadata Extractor derives the pediatric subgroup
label from the file's stored effective diameter, so files with diameters in
different subgroup ranges get different labels.  The code computes
`pediatric_subgroup(18.2)` — a hard-coded constant (line 294) — so every
successfully parsed file receives the *same* label regardless of its stored
diameter.  This theorem exhibits the divergence: the subgroup column of any
two parsed files is identical. -/
theorem C6_subgroup_constant :
    ∀ f1 f2 : DicomFile,
      (dicom_meta_to_dataframe f1).isSome = true →
      (dicom_meta_to_dataframe f2).isSome = true →
      (dicom_meta_to_dataframe f1).map (fun r => r.subgroup) =
        (dicom_meta_to_dataframe f2).map (fun r => r.subgroup) := by
  intro f1 f2 h1 h2
  obtain ⟨r1, hr1⟩ := Option.isSome_iff_exists.1 h1
  obtain ⟨r2, hr2⟩ := Option.isSome_iff_exists.1 h2
  rw [hr1, hr2, Option.map_some', Option.map_some',
    subgroup_of_extract hr1, subgroup_of_extract hr2]

/-- Witness for C6: two concrete parsed files whose stored diameters (20 cm
and 1 cm) lie in different subgroup ranges nevertheless receive the same
subgroup label. -/
theorem C6_subgroup_constant_witness :
    (dicom_meta_to_dataframe fileA).isSome = true ∧
    (dicom_meta_to_dataframe fileB).isSome = true ∧
    (dicom_meta_to_dataframe fileA).map (fun r => r.subgroup) =
      (dicom_meta_to_dataframe fileB).map (fun r => r.subgroup) :=
  ⟨by decide, by decide, C6_subgroup_constant fileA fileB (by decide) (by decide)⟩

/-- C9: the age-to-effective-diameter function computes the TG204 polynomial
for every age ≤ 22 and, for every age > 22, looks the diameter up in the
fixed decade-bucketed adult table with the age rounded down to a multiple of
10; `age_to_eff_diameter 30` is exactly 99.9, the buckets are 30→99.9,
40→102.8, 60→106.2, 70→106.6, 80→104.1, and no bucket exists below 30
(ages in (22, 30) fail) or for the 50s decade (ages in [50, 60) fail). -/
theorem C9_age_curve :
    (∀ age : ℝ, age ≤ 22 → age_to_eff_diameter age =
      some (18.788598 + 0.19486455 * age ^ (1.5:ℝ) - 1.060056 * age ^ (0.5:ℝ)
        - 7.6244784 * Real.exp (-age))) ∧
    (∀ age : ℝ, 22 < age →
      age_to_eff_diameter age = adult_waist_circumferences_cm (round_to_decile age)) ∧
    age_to_eff_diameter 30 = some 99.9 ∧
    adult_waist_circumferences_cm 30 = some 99.9 ∧
    adult_waist_circumferences_cm 40 = some 102.8 ∧
    adult_waist_circumferences_cm 60 = some 106.2 ∧
    adult_waist_circumferences_cm 70 = some 106.6 ∧
    adult_waist_circumferences_cm 80 = some 104.1 ∧
    (∀ k : ℝ, k < 30 → adult_waist_circumferences_cm k = none) ∧
    (∀ age : ℝ, 22 < age → age < 30 → age_to_eff_diameter age = none) ∧
    (∀ age : ℝ, 50 ≤ age → age < 60 → age_to_eff_diameter age = none) := by
  have hdecile : ∀ age : ℝ, round_to_decile age = 10 * (⌊age / 10⌋ : ℝ) := by
    intro age
    rw [round_to_decile, pyModReal]
    ring
  have htable_none : ∀ x : ℝ, x ≠ 30 → x ≠ 40 → x ≠ 60 → x ≠ 70 → x ≠ 80 →
      adult_waist_circumferences_cm x = none := by
    intro x h1 h2 h3 h4 h5
    rw [adult_waist_circumferences_cm, if_neg h1, if_neg h2, if_neg h3, if_neg h4, if_neg h5]
  refine ⟨?_, ?_, ?_, ?_, ?_, ?_, ?_, ?_, ?_, ?_, ?_⟩
  · intro age h
    rw [age_to_eff_diameter, if_neg (by linarith)]
    ring_nf
  · intro age h
    rw [age_to_eff_diameter, if_pos h]
  · have h30 : round_to_decile (30 : ℝ) = 30 := by
      rw [hdecile, show (30 : ℝ) / 10 = ((3 : ℤ) : ℝ) by norm_num, Int.floor_intCast]
      norm_num
    rw [age_to_eff_diameter, if_pos (by norm_num), h30, adult_waist_circumferences_cm,
      if_pos rfl]
  · rw [adult_waist_circumferences_cm, if_pos rfl]
  · rw [adult_waist_circumferences_cm, if_neg (by norm_num), if_pos rfl]
  · rw [adult_waist_circumferences_cm, if_neg (by norm_num), if_neg (by norm_num), if_pos rfl]
  · rw [adult_waist_circumferences_cm, if_neg (by norm_num), if_neg (by norm_num),
      if_neg (by norm_num), if_pos rfl]
  · rw [adult_waist_circumferences_cm, if_neg (by norm_num), if_neg (by norm_num),
      if_neg (by norm_num), if_neg (by norm_num), if_pos rfl]
  · intro k hk
    exact htable_none k (by linarith) (by linarith) (by linarith) (by linarith) (by linarith)
  · intro age h1 h2
    have hfloor : ⌊age / 10⌋ = 2 := by
      rw [Int.floor_eq_iff]
      push_cast
      constructor <;> linarith
    rw [age_to_eff_diameter, if_pos h1, hdecile, hfloor]
    push_cast
    exact htable_none _ (by norm_num) (by norm_num) (by norm_num) (by norm_num) (by norm_num)
  · intro age h1 h2
    have hfloor : ⌊age / 10⌋ = 5 := by
      rw [Int.floor_eq_iff]
      push_cast
      constructor <;> linarith
    rw [age_to_eff_diameter, if_pos (by linarith), hdecile, hfloor]
    push_cast
    exact htable_none _ (by norm_num) (by norm_num) (by norm_num) (by norm_num) (by norm_num)

/-- Witness for C9: the two quantified branches instantiated concretely —
age 1 takes the polynomial branch and age 25 falls in the bucket gap below
30. -/
theorem C9_age_curve_witness :
    ((1 : ℝ) ≤ 22) ∧ ((22 : ℝ) < 25) ∧ ((25 : ℝ) < 30) ∧
    age_to_eff_diameter 1 = some (18.788598 + 0.19486455 * (1 : ℝ) ^ (1.5:ℝ)
      - 1.060056 * (1 : ℝ) ^ (0.5:ℝ) - 7.6244784 * Real.exp (-1)) ∧
    age_to_eff_diameter 25 = none :=
  ⟨by norm_num, by norm_num, by norm_num,
    C9_age_curve.1 1 (by norm_num),
    C9_age_curve.2.2.2.2.2.2.2.2.2.1 25 (by norm_num) (by norm_num)⟩

/-- Counterexample for C4: the claim says a CCT189 lesion-diameter *list*
whose length is not 4 — and a CTP404 non-scalar — always fail with
InvalidParameter before any external call.  An empty list is such a list
(length 0 ≠ 4) and is also non-scalar, but it is falsy, so
`if lesion_diameter:` (line 226) skips both checks and the external call is
made for both phantoms. -/
theorem C4_empty_lesion_list_cex :
    (mirt_sim (lit "CCT189") 200 200 340 300000 340 (lit "hanning,2.05") 1
      (.vec []) true).isOk = true ∧
    (mirt_sim (lit "CTP404") 200 200 340 300000 340 (lit "hanning,2.05") 1
      (.vec []) true).isOk = true ∧
    ([] : List ℚ).length ≠ 4 := by
  refine ⟨by decide, by decide, by decide⟩

/-- C4 (amended): a *non-empty* (truthy) lesion-diameter list of length ≠ 4
with phantom 'CCT189', and a non-empty lesion-diameter list with any casing
of 'CTP404', fail with a `ValueError` (InvalidParameter) before the external
simulator is invoked (the `Except.error` result carries no `MirtCall`, which
is the model of "no external call was made"). -/
theorem C4_lesion_shape_errors :
    (∀ (l : List ℚ) (dpat rd rfov I0 f0 : ℚ) (kern : List Char) (n : ℕ) (v : Bool),
      l ≠ [] → l.length ≠ 4 →
      mirt_sim (lit "CCT189") dpat rd rfov I0 f0 kern n (.vec l) v =
        .error (.invalidParameter (lit "CCT189 phantom expects a length 4 list"))) ∧
    (∀ (l : List ℚ) (dpat rd rfov I0 f0 : ℚ) (kern : List Char) (n : ℕ) (v : Bool)
      (ph : List Char), l ≠ [] → pyUpper ph = lit "CTP404" →
      mirt_sim ph dpat rd rfov I0 f0 kern n (.vec l) v =
        .error (.invalidParameter (lit "CTP lesion diameter must be length 1 int or float"))) := by
  constructor
  · intro l dpat rd rfov I0 f0 kern n v hl hlen
    have hup : ¬ (pyUpper (lit "CCT189") = lit "CTP404" ∧ ldScalar (.vec l) = false) := by
      intro hc
      exact absurd hc.1 (by decide)
    have hal : lit "CCT189" ∉ mitaAliases := by decide
    simp only [mirt_sim, if_neg hal]
    rw [if_pos (show ldTruthy (.vec l) = true from by simp [ldTruthy, hl]),
      if_neg hup, if_pos ⟨by trivial, hlen⟩]
  · intro l dpat rd rfov I0 f0 kern n v ph hl hup
    have hal : ph ∉ mitaAliases := by
      intro hmem
      simp only [mitaAliases, List.mem_cons, List.mem_singleton] at hmem
      rcases hmem with rfl | rfl | rfl | (rfl | h0)
      · exact absurd hup (by decide)
      · exact absurd hup (by decide)
      · exact absurd hup (by decide)
      · exact absurd hup (by decide)
      · exact absurd h0 (by simp)
    simp only [mirt_sim, if_neg hal]
    rw [if_pos (show ldTruthy (.vec l) = true from by simp [ldTruthy, hl]),
      if_pos ⟨hup, rfl⟩]

/-- Witness for C4 (amended): a length-3 list raises the CCT189 error, and a
length-4 list with lowercase 'ctp404' raises the CTP404 error. -/
theorem C4_lesion_shape_errors_witness :
    (([1, 2, 3] : List ℚ) ≠ [] ∧ ([1, 2, 3] : List ℚ).length ≠ 4 ∧
      mirt_sim (lit "CCT189") 200 200 340 300000 340 (lit "k") 1 (.vec [1, 2, 3]) true =
        .error (.invalidParameter (lit "CCT189 phantom expects a length 4 list"))) ∧
    (([1, 2, 3, 4] : List ℚ) ≠ [] ∧ pyUpper (lit "ctp404") = lit "CTP404" ∧
      mirt_sim (lit "ctp404") 200 200 340 300000 340 (lit "k") 1 (.vec [1, 2, 3, 4]) true =
        .error (.invalidParameter (lit "CTP lesion diameter must be length 1 int or float"))) :=
  ⟨⟨by decide, by decide,
      C4_lesion_shape_errors.1 [1, 2, 3] 200 200 340 300000 340 (lit "k") 1 true
        (by decide) (by decide)⟩,
    ⟨by decide, by decide,
      C4_lesion_shape_errors.2 [1, 2, 3, 4] 200 200 340 300000 340 (lit "k") 1 true
        (lit "ctp404") (by decide) (by decide)⟩⟩

/-- Counterexample for C5: the claim's "if and only if" fails in the exact
arithmetic of the embedding — with reference fov 2.2 mm and patient diameter
2 mm ≠ reference diameter 200 mm, the derived fov `1.1 * 2 = 2.2` *equals*
the reference fov even though the diameters differ. -/
theorem C5_fov_iff_cex :
    ¬ ((callFov (mirt_sim (lit "CCT189") 2 200 (11/5) 300000 340 (lit "k") 1 .absent true)
        = 11/5) ↔ ((2 : ℚ) = 200)) := by
  intro hiff
  have hfov : callFov (mirt_sim (lit "CCT189") 2 200 (11/5) 300000 340 (lit "k") 1
      .absent true) = 11/5 := by
    norm_num [mirt_sim, ldTruthy, callFov, mitaAliases, lit]
  have := hiff.1 hfov
  norm_num at this

/-- C5 (amended): whenever `mirt_sim` reaches the external call, the field of
view it passes equals the reference fov if the patient diameter equals the
reference diameter, and `1.1 ×` the patient diameter otherwise (the forward
"only if" direction of the claim can fail when `1.1·d` coincides with the
reference fov, as the counterexample shows). -/
theorem C5_fov_rule :
    ∀ (ph : List Char) (d rd rfov I0 f0 : ℚ) (kern : List Char) (n : ℕ)
      (ld : LesionDiameter) (v : Bool),
      (mirt_sim ph d rd rfov I0 f0 kern n ld v).isOk = true →
      ((d = rd → callFov (mirt_sim ph d rd rfov I0 f0 kern n ld v) = rfov) ∧
       (d ≠ rd → callFov (mirt_sim ph d rd rfov I0 f0 kern n ld v) = 11/10 * d)) := by
  have key : ∀ (ph : List Char) (d rd rfov I0 f0 : ℚ) (kern : List Char) (n : ℕ)
      (ld : LesionDiameter) (v : Bool),
      (mirt_sim ph d rd rfov I0 f0 kern n ld v).isOk = true →
      callFov (mirt_sim ph d rd rfov I0 f0 kern n ld v)
        = if d = rd then rfov else 11/10 * d := by
    intro ph d rd rfov I0 f0 kern n ld v hok
    rcases ld with _ | q | l
    · simp [mirt_sim, ldTruthy, callFov]
    · by_cases hq : q = 0
      · subst hq
        simp [mirt_sim, ldTruthy, callFov]
      · simp [mirt_sim, ldTruthy, ldScalar, hq, Except.isOk, Except.toBool] at hok
    · by_cases hl : l = []
      · subst hl
        simp [mirt_sim, ldTruthy, callFov]
      · have hup189 : ¬ pyUpper (lit "CCT189") = lit "CTP404" := by decide
        by_cases hup : pyUpper (if ph ∈ mitaAliases then lit "CCT189" else ph) = lit "CTP404"
        · simp [mirt_sim, ldTruthy, ldScalar, hl, hup, Except.isOk, Except.toBool] at hok
        · by_cases hc1 : (if ph ∈ mitaAliases then lit "CCT189" else ph) = lit "CCT189"
          · by_cases hc4 : l.length = 4
            · simp [mirt_sim, ldTruthy, ldScalar, hl, hup, hup189, hc1, hc4, callFov]
            · simp [mirt_sim, ldTruthy, ldScalar, hl, hup, hup189, hc1, hc4, Except.isOk, Except.toBool] at hok
          · simp [mirt_sim, ldTruthy, ldScalar, hl, hup, hup189, hc1, callFov]
  intro ph d rd rfov I0 f0 kern n ld v hok
  rw [key ph d rd rfov I0 f0 kern n ld v hok]
  constructor
  · intro hd
    rw [if_pos hd]
  · intro hd
    rw [if_neg hd]

/-- Witness for C5 (amended): with patient diameter 100 ≠ reference 200 the
fov passed to the simulator is `1.1 × 100 = 110`. -/
theorem C5_fov_rule_witness :
    ((mirt_sim (lit "CCT189") 100 200 340 300000 340 (lit "k") 1 .absent true).isOk = true) ∧
    ((100 : ℚ) ≠ 200) ∧
    callFov (mirt_sim (lit "CCT189") 100 200 340 300000 340 (lit "k") 1 .absent true)
      = 11/10 * 100 :=
  ⟨by decide, by norm_num,
    (C5_fov_rule (lit "CCT189") 100 200 340 300000 340 (lit "k") 1 .absent true
      (by decide)).2 (by norm_num)⟩

/-- Counterexample for C10: the claim says both lesion-diameter shape checks
compare the phantom string case-sensitively against 'CTP404'/'CCT189'.  The
CTP404 check actually compares `phantom.upper()` (line 227), so lowercase
'ctp404' with a lesion-diameter list *does* raise the shape error — under the
claimed case-sensitive comparison it would not. -/
theorem C10_ctp404_case_cex :
    lit "ctp404" ≠ lit "CTP404" ∧
    mirt_sim (lit "ctp404") 200 200 340 300000 340 (lit "k") 1 (.vec [1, 2, 3, 4]) true =
      .error (.invalidParameter (lit "CTP lesion diameter must be length 1 int or float")) := by
  refine ⟨by decide, by decide⟩

/-- C10 (amended): `CTobj.__init__` accepts any casing whose upper-case form
is a supported phantom kind and stores the string verbatim; in `mirt_sim` the
CCT189 shape check compares case-sensitively (`phantom == 'CCT189'`, line
229) while the CTP404 check is case-insensitive (`phantom.upper() ==
'CTP404'`, line 227); consequently the accepted non-canonical casing
'cct189' with a malformed (length ≠ 4) lesion-diameter list raises no
InvalidParameter and the external call proceeds. -/
theorem C10_casing :
    (∀ s : List Char, s ∉ mitaAliases → pyUpper s ∈ phantomOptions →
      ctobjPhantom s = .ok s) ∧
    (mirt_sim (lit "cct189") 200 200 340 300000 340 (lit "k") 1
      (.vec [1, 2]) true).isOk = true ∧
    mirt_sim (lit "ctp404") 200 200 340 300000 340 (lit "k") 1 (.vec [1, 2]) true =
      .error (.invalidParameter (lit "CTP lesion diameter must be length 1 int or float")) := by
  refine ⟨?_, by decide, by decide⟩
  intro s hal hup
  rw [ctobjPhantom]
  rw [if_neg hal, if_pos hup]

/-- Witness for C10 (amended): 'cct189' is accepted by the constructor and
stored verbatim. -/
theorem C10_casing_witness :
    (lit "cct189" ∉ mitaAliases) ∧ (pyUpper (lit "cct189") ∈ phantomOptions) ∧
    ctobjPhantom (lit "cct189") = .ok (lit "cct189") :=
  ⟨by decide, by decide, C10_casing.1 (lit "cct189") (by decide) (by decide)⟩

/-- Counterexample for C2: the claim says the SOP/media-storage offset for a
slice is `slice index + study id + series id` relative to the template.  The
code re-derives the UID from the *updated* UID each iteration (lines
193-199), so the offsets accumulate: with study id 1, series id 0 and two
slices, slice 1 gets final segment 12325, not the claimed
`12322 + (1 + 1 + 0) = 12324`. -/
theorem C2_sop_offset_cex :
    ((write_to_dicom ctC2 (lit "n") (lit ".dcm") false tpl0).toOption.map
      (fun w => w.slices.map (fun s => s.sopSeg))) = some [12323, 12325] ∧
    ((write_to_dicom ctC2 (lit "n") (lit ".dcm") false tpl0).toOption.map
      (fun w => w.slices.map (fun s => s.mediaSeg))) = some [12323, 12325] ∧
    ctC2.studyid = 1 ∧ ctC2.seriesid = 0 ∧
    (12325 : ℕ) ≠ 12322 + (1 + 1 + 0) := by
  refine ⟨by decide, by decide, by decide, by decide, by decide⟩

/-- C2 (amended): per `write_to_dicom` call, the Series and Study UID final
segments are the template's plus `studyid`; the SOP and media-storage final
segments are updated in place across the slice loop, so slice `i`
(`instanceNumber = i + 1`) carries the template's segment plus the
*accumulated* offset `∑ j ≤ i, (j + studyid + seriesid)` — which agrees with
the claimed `i + studyid + seriesid` only on the first slice. -/
theorem C2_uid_offsets (ct : CTobjData) (stem ext : List Char) (g : Bool)
    (tpl : TemplateDicom) (w : WriteResult)
    (hw : write_to_dicom ct stem ext g tpl = .ok w) :
    w.seriesSeg = tpl.seriesSeg + ct.studyid ∧
    w.studySeg = tpl.studySeg + ct.studyid ∧
    ∀ s ∈ w.slices,
      s.sopSeg = tpl.sopSeg +
        ∑ j ∈ Finset.range s.instanceNumber, (j + ct.studyid + ct.seriesid) ∧
      s.mediaSeg = tpl.mediaSeg +
        ∑ j ∈ Finset.range s.instanceNumber, (j + ct.studyid + ct.seriesid) := by
  by_cases hassert : ct.reconSlices = ct.nsims
  · rw [write_to_dicom_ok ct stem ext g tpl hassert] at hw
    injection hw with hw
    subst hw
    refine ⟨rfl, rfl, ?_⟩
    intro s hs
    obtain ⟨i, _, rfl⟩ := mem_writeSlices hs
    exact ⟨rfl, rfl⟩
  · rw [write_to_dicom, if_pos hassert] at hw
    cases hw

/-- Witness for C2 (amended): the accumulated offsets of the two slices of
`ctC2`'s write are `0 + 1` and `(0 + 1) + (1 + 1)`. -/
theorem C2_uid_offsets_witness :
    (write_to_dicom ctC2 (lit "n") (lit ".dcm") false tpl0 = .ok wC2) ∧
    (wC2.seriesSeg = tpl0.seriesSeg + ctC2.studyid ∧
     wC2.studySeg = tpl0.studySeg + ctC2.studyid ∧
     ∀ s ∈ wC2.slices,
       s.sopSeg = tpl0.sopSeg +
         ∑ j ∈ Finset.range s.instanceNumber, (j + ctC2.studyid + ctC2.seriesid) ∧
       s.mediaSeg = tpl0.mediaSeg +
         ∑ j ∈ Finset.range s.instanceNumber, (j + ctC2.studyid + ctC2.seriesid)) :=
  ⟨write_to_dicom_ok ctC2 (lit "n") (lit ".dcm") false tpl0 rfl,
   C2_uid_offsets ctC2 (lit "n") (lit ".dcm") false tpl0 wC2
     (write_to_dicom_ok ctC2 (lit "n") (lit ".dcm") false tpl0 rfl)⟩

/-- Counterexample for C8: the multi-slice test of line 207 uses the
*reconstruction's* slice count, not the written volume's.  With a
single-slice reconstruction and a two-slice ground-truth volume,
`write_to_dicom(..., groundtruth=True)` writes two slices, both to the same
unsuffixed file name — the written volume has more than one slice but no
per-slice name carries a 3-digit index, and the returned list repeats one
path. -/
theorem C8_groundtruth_mismatch_cex :
    ((write_to_dicom ctC8 (lit "a") (lit ".dcm") true tpl0).toOption.map
      (fun w => w.slices.map (fun s => s.fname)))
      = some [lit "a.dcm", lit "a.dcm"] ∧
    ctC8.gtSlices = 2 ∧
    lit "a.dcm" ≠ lit "a" ++ [ '_' ] ++ pad3 0 ++ lit ".dcm" ∧
    lit "a.dcm" ≠ lit "a" ++ [ '_' ] ++ pad3 1 ++ lit ".dcm" := by
  refine ⟨by decide, by decide, by decide, by decide⟩

/-- C8 (amended): whenever the written volume's slice count equals the
reconstruction's (always the case for `groundtruth=False`), `write_to_dicom`
writes one file per slice and returns exactly those paths: for more than one
slice each name is the stem with `'_'` and the 3-digit zero-padded slice
index inserted before the extension, and a single-slice volume is written to
the unsuffixed name.  (When `groundtruth=True` and the ground-truth volume's
slice count differs from the reconstruction's, the suffix rule follows the
reconstruction's count instead — see the counterexample.) -/
theorem C8_slice_naming (ct : CTobjData) (stem ext : List Char) (g : Bool)
    (tpl : TemplateDicom) (w : WriteResult)
    (hw : write_to_dicom ct stem ext g tpl = .ok w)
    (hvol : (if g then ct.gtSlices else ct.reconSlices) = ct.reconSlices) :
    w.slices.length = (if g then ct.gtSlices else ct.reconSlices) ∧
    (∀ i, i < (if g then ct.gtSlices else ct.reconSlices) →
      (w.slices[i]?).map (fun s => s.fname) = some
        (if (if g then ct.gtSlices else ct.reconSlices) > 1
         then stem ++ [ '_' ] ++ pad3 i ++ ext else stem ++ ext)) := by
  by_cases hassert : ct.reconSlices = ct.nsims
  · rw [write_to_dicom_ok ct stem ext g tpl hassert] at hw
    injection hw with hw
    subst hw
    constructor
    · rw [writeSlices_length]
    · intro i hi
      rw [writeSlices_getElem ct.studyid ct.seriesid ct.reconSlices stem ext _
        tpl.sopSeg tpl.mediaSeg 0 i hi]
      rw [Option.map_some']
      rw [hvol]
      simp only [Nat.zero_add]
  · rw [write_to_dicom, if_pos hassert] at hw
    cases hw

/-- Witness for C8 (amended): writing the single-slice reconstruction of
`ctC8` produces exactly one file, at the unsuffixed name. -/
theorem C8_slice_naming_witness :
    (write_to_dicom ctC8 (lit "a") (lit ".dcm") false tpl0 = .ok wC8) ∧
    ((if false then ctC8.gtSlices else ctC8.reconSlices) = ctC8.reconSlices) ∧
    wC8.slices.length = (if false then ctC8.gtSlices else ctC8.reconSlices) ∧
    (wC8.slices[0]?).map (fun s => s.fname) = some (lit "a" ++ lit ".dcm") := by
  have hw : write_to_dicom ctC8 (lit "a") (lit ".dcm") false tpl0 = .ok wC8 :=
    write_to_dicom_ok ctC8 (lit "a") (lit ".dcm") false tpl0 rfl
  have h := C8_slice_naming ctC8 (lit "a") (lit ".dcm") false tpl0 wC8 hw rfl
  refine ⟨hw, rfl, h.1, ?_⟩
  have h0 := h.2 0 (by decide)
  rw [h0]
  decide

/-- Shape of every file of a batch run with single-slice writes
(`nsims = 1`, single-slice ground truth): series id 0, slice index 0, and
UID final segments `template + studyid`. -/
lemma batch_file_shape {p : BatchParams} (h1 : p.nsims = 1) (h2 : p.gtSlices = 1)
    {f : FileOut} (hf : f ∈ run_batch_sim p) :
    f.seriesid = 0 ∧ f.sliceIdx = 0 ∧ f.sopSeg = p.tpl.sopSeg + f.studyid ∧
      f.mediaSeg = p.tpl.mediaSeg + f.studyid := by
  obtain ⟨phantom, _, pd, _, hcase⟩ := mem_run_batch_sim hf
  rcases hcase with ⟨sd, _, hsw⟩ | hnf | hgt
  · obtain ⟨i, hi, rfl⟩ := mem_sweepFiles hsw
    rw [h1] at hi
    have hi0 : i = 0 := by omega
    subst hi0
    refine ⟨rfl, rfl, ?_, ?_⟩ <;> simp [Finset.sum_range_one]
  · obtain ⟨i, hi, rfl⟩ := mem_auxFile hnf
    have hi0 : i = 0 := by simp at hi; omega
    subst hi0
    refine ⟨rfl, rfl, ?_, ?_⟩ <;> simp [Finset.sum_range_one]
  · obtain ⟨i, hi, rfl⟩ := mem_auxFile hgt
    rw [if_pos rfl, h2] at hi
    have hi0 : i = 0 := by omega
    subst hi0
    refine ⟨rfl, rfl, ?_, ?_⟩ <;> simp [Finset.sum_range_one]

/-- Counterexample for C1: in the batch `batchTwo` (two dose levels, two
noise repeats) the files at positions 1 and 2 carry the distinct identity
triples (study 0, series 0, slice 1) and (study 1, series 0, slice 0) yet
the same SOP and media-storage final segment 12323 — a silent collision. -/
theorem C1_uid_collision_cex :
    ((run_batch_sim batchTwo)[1]?).map
        (fun f => (f.studyid, f.seriesid, f.sliceIdx, f.sopSeg, f.mediaSeg))
      = some (0, 0, 1, 12323, 12323) ∧
    ((run_batch_sim batchTwo)[2]?).map
        (fun f => (f.studyid, f.seriesid, f.sliceIdx, f.sopSeg, f.mediaSeg))
      = some (1, 0, 0, 12323, 12323) ∧
    ((0, 0, 1) : ℕ × ℕ × ℕ) ≠ (1, 0, 0) := by
  refine ⟨by decide, by decide, by decide⟩

/-- C1 (amended): within one batch run whose writes are single-slice
(`nsims = 1` and a single-slice ground-truth volume — the orchestrator's
defaults), distinct (study id, series id, slice index) triples map to
distinct SOP and media-storage final segments.  With `nsims ≥ 2` and at
least two dose levels the property fails (see the counterexample): slice
`k` of study `t` collides with slice `k'` of study `t'` whenever the
accumulated offsets coincide, e.g. (study 0, slice 1) and (study 1,
slice 0). -/
theorem C1_uid_segments_distinct (p : BatchParams) (h1 : p.nsims = 1)
    (h2 : p.gtSlices = 1) (f g : FileOut)
    (hf : f ∈ run_batch_sim p) (hg : g ∈ run_batch_sim p)
    (hne : (f.studyid, f.seriesid, f.sliceIdx) ≠ (g.studyid, g.seriesid, g.sliceIdx)) :
    f.sopSeg ≠ g.sopSeg ∧ f.mediaSeg ≠ g.mediaSeg := by
  obtain ⟨hfs, hfi, hfsop, hfmed⟩ := batch_file_shape h1 h2 hf
  obtain ⟨hgs, hgi, hgsop, hgmed⟩ := batch_file_shape h1 h2 hg
  have hstudy : f.studyid ≠ g.studyid := by
    intro he
    exact hne (by rw [he, hfs, hgs, hfi, hgi])
  constructor
  · rw [hfsop, hgsop]
    omega
  · rw [hfmed, hgmed]
    omega

/-- Witness for C1 (amended): in the single-repeat batch `batchOne` the
first two files (doses 0 and 1 of the sweep) have distinct triples and the
theorem yields distinct SOP segments. -/
theorem C1_uid_segments_distinct_witness :
    batchOne.nsims = 1 ∧ batchOne.gtSlices = 1 ∧
    ((run_batch_sim batchOne)[0]?).map (fun f => f.sopSeg) ≠
      ((run_batch_sim batchOne)[1]?).map (fun f => f.sopSeg) := by
  refine ⟨rfl, rfl, ?_⟩
  obtain ⟨f, hf0⟩ := Option.isSome_iff_exists.1
    (show ((run_batch_sim batchOne)[0]?).isSome = true from by decide)
  obtain ⟨g, hg1⟩ := Option.isSome_iff_exists.1
    (show ((run_batch_sim batchOne)[1]?).isSome = true from by decide)
  have hfmem : f ∈ run_batch_sim batchOne := by
    have := List.getElem?_eq_some.1 hf0
    obtain ⟨hlt, heq⟩ := this
    exact heq ▸ List.getElem_mem hlt
  have hgmem : g ∈ run_batch_sim batchOne := by
    have := List.getElem?_eq_some.1 hg1
    obtain ⟨hlt, heq⟩ := this
    exact heq ▸ List.getElem_mem hlt
  have htrip0 : ((run_batch_sim batchOne)[0]?).map
      (fun f => (f.studyid, f.seriesid, f.sliceIdx)) = some (0, 0, 0) := by decide
  have htrip1 : ((run_batch_sim batchOne)[1]?).map
      (fun f => (f.studyid, f.seriesid, f.sliceIdx)) = some (1, 0, 0) := by decide
  rw [hf0] at htrip0
  rw [hg1] at htrip1
  simp only [Option.map_some', Option.some.injEq] at htrip0 htrip1
  have hne : (f.studyid, f.seriesid, f.sliceIdx) ≠ (g.studyid, g.seriesid, g.sliceIdx) := by
    rw [htrip0, htrip1]
    decide
  have h := C1_uid_segments_distinct batchOne rfl rfl f g hfmem hgmem hne
  rw [hf0, hg1]
  simp only [Option.map_some', ne_eq, Option.some.injEq]
  exact h.1

/-- Introduction form of `writeSlices_getElem` at starting index 0: the
`i`-th slice record is a member of the written slice list. -/
lemma writeSlices_mem_intro (studyid seriesid nslices : ℕ) (stem ext : List Char)
    (n sop media i : ℕ) (hi : i < n) :
    ({ fname := if nslices > 1 then stem ++ [ '_' ] ++ pad3 i ++ ext else stem ++ ext
       instanceNumber := i + 1
       sopSeg := sop + ∑ j ∈ Finset.range (i + 1), (j + studyid + seriesid)
       mediaSeg := media + ∑ j ∈ Finset.range (i + 1), (j + studyid + seriesid) } : SliceOut)
      ∈ writeSlices studyid seriesid nslices stem ext sop media 0 n := by
  have h := writeSlices_getElem studyid seriesid nslices stem ext n sop media 0 i hi
  have h2 : ∀ j, 0 + j + studyid + seriesid = j + studyid + seriesid := by omega
  simp only [h2, Nat.zero_add] at h
  obtain ⟨hlt, heq⟩ := List.getElem?_eq_some.1 h
  exact heq ▸ List.getElem_mem hlt

/-- Introduction form of `mem_sweepFiles`: the `i`-th repeat's file record is
among the files persisted for one sweep combination. -/
lemma sweepFiles_mem_intro (p : BatchParams) (phantom : List Char) (d pid : ℕ)
    (pname : List Char) (studyid : ℕ) (dose rel : ℚ) (i : ℕ) (hi : i < p.nsims) :
    ({ dicom := { pathStr := sweepDirStr p phantom d (pyIntTrunc rel).toNat ++
                    (if p.nsims > 1 then pname ++ [ '_' ] ++ pad3 i ++ lit ".dcm"
                     else pname ++ lit ".dcm")
                  stem := pathStem (if p.nsims > 1 then pname ++ [ '_' ] ++ pad3 i ++ lit ".dcm"
                     else pname ++ lit ".dcm")
                  patientName := pname
                  imageComments := lit "effctive diameter [cm]: " ++ pyStrDiv10 d }
       kind := .sweep, phantomUsed := phantom, diameterUsed := d
       doseUsed := dose, relDose := rel
       studyid := studyid, seriesid := 0, sliceIdx := i
       sopSeg := p.tpl.sopSeg + ∑ j ∈ Finset.range (i + 1), (j + studyid)
       mediaSeg := p.tpl.mediaSeg + ∑ j ∈ Finset.range (i + 1), (j + studyid) } : FileOut)
      ∈ sweepFiles p phantom d pid pname studyid dose rel := by
  rw [sweepFiles, write_to_dicom_ok _ _ _ _ _ rfl]
  refine List.mem_map.2 ⟨_, writeSlices_mem_intro studyid 0 p.nsims pname (lit ".dcm")
    p.nsims p.tpl.sopSeg p.tpl.mediaSeg i hi, ?_⟩
  have hsum : ∀ j : ℕ, j + studyid + 0 = j + studyid := fun j => by omega
  simp only [hsum, Nat.add_sub_cancel]

/-- Introduction form of `mem_run_batch_sim` for the sweep branch: a file of
one sweep combination is among the batch run's persisted files. -/
lemma sweep_mem_run_batch_sim {p : BatchParams} {phantom : List Char}
    (hph : phantom ∈ p.models) {pd : ℕ × ℕ} (hpd : pd ∈ p.diameters.enum)
    {sd : ℕ × ℚ} (hsd : sd ∈ (p.dose_levels.map (fun r => p.full_dose * r)).enum)
    {f : FileOut}
    (hf : f ∈ sweepFiles p phantom pd.2 pd.1 (pyStrDiv10 pd.2 ++ lit " cm " ++ phantom)
      sd.1 sd.2 (100 * sd.2 / pyMax (p.dose_levels.map (fun r => p.full_dose * r)))) :
    f ∈ run_batch_sim p := by
  simp only [run_batch_sim]
  refine List.mem_flatten.2 ⟨_, List.mem_map.2 ⟨phantom, hph, rfl⟩, ?_⟩
  refine List.mem_flatten.2 ⟨_, List.mem_map.2 ⟨pd, hpd, rfl⟩, ?_⟩
  refine List.mem_append.2 (Or.inl (List.mem_append.2 (Or.inl ?_)))
  exact List.mem_flatten.2 ⟨_, List.mem_map.2 ⟨sd, hsd, rfl⟩, hf⟩

/-- Counterexample for C7: in the batch `batchFrac` the low-dose fraction
7/16 yields the relative dose 43.75%; the persisted path uses
`int(rel_dose) = 43` (truncation), while the claimed `round` gives 44, so
the claimed path differs from the actual one. -/
theorem C7_dose_path_round_cex :
    ∃ f ∈ run_batch_sim batchFrac, f.kind = .sweep ∧
      f.relDose = 175/4 ∧
      f.dicom.pathStr = sweepDirStr batchFrac f.phantomUsed f.diameterUsed 43 ++
        (f.dicom.patientName ++ lit ".dcm") ∧
      (pyRound f.relDose).toNat = 44 ∧
      sweepDirStr batchFrac f.phantomUsed f.diameterUsed (pyIntTrunc f.relDose).toNat ≠
        sweepDirStrRound batchFrac f.phantomUsed f.diameterUsed f.relDose := by
  have hmax : pyMax (batchFrac.dose_levels.map (fun r => batchFrac.full_dose * r)) = 300000 := by
    norm_num [pyMax, batchFrac, max_def]
  have hrel : 100 * (batchFrac.full_dose * (7/16 : ℚ)) /
      pyMax (batchFrac.dose_levels.map (fun r => batchFrac.full_dose * r)) = 175/4 := by
    rw [hmax]; norm_num [batchFrac]
  have hfl : ⌊(175/4 : ℚ)⌋ = (43 : ℤ) := by
    rw [Int.floor_eq_iff]
    norm_num
  have htr : pyIntTrunc (175/4 : ℚ) = 43 := by
    rw [pyIntTrunc, if_neg (by norm_num), hfl]
  have hrd : pyRound (175/4 : ℚ) = 44 := by
    simp only [pyRound, hfl]
    rw [if_neg (by push_cast; norm_num), if_pos (by push_cast; norm_num)]
    norm_num
  have hsd : ((0 : ℕ), batchFrac.full_dose * (7/16 : ℚ)) ∈
      (batchFrac.dose_levels.map (fun r => batchFrac.full_dose * r)).enum := by
    simp [batchFrac, List.enum]
  refine ⟨_, sweep_mem_run_batch_sim (List.mem_singleton.2 rfl)
      (show ((0 : ℕ), (200 : ℕ)) ∈ batchFrac.diameters.enum by decide) hsd
      (sweepFiles_mem_intro batchFrac (lit "CCT189") 200 0
        (pyStrDiv10 200 ++ lit " cm " ++ lit "CCT189") 0
        (batchFrac.full_dose * (7/16))
        (100 * (batchFrac.full_dose * (7/16)) /
          pyMax (batchFrac.dose_levels.map (fun r => batchFrac.full_dose * r)))
        0 (by decide)), rfl, hrel, ?_, ?_, ?_⟩
  · show sweepDirStr batchFrac (lit "CCT189") 200
        (pyIntTrunc (100 * (batchFrac.full_dose * (7/16 : ℚ)) /
          pyMax (batchFrac.dose_levels.map (fun r => batchFrac.full_dose * r)))).toNat ++
        (if batchFrac.nsims > 1
          then (pyStrDiv10 200 ++ lit " cm " ++ lit "CCT189") ++ [ '_' ] ++ pad3 0 ++ lit ".dcm"
          else (pyStrDiv10 200 ++ lit " cm " ++ lit "CCT189") ++ lit ".dcm") =
      sweepDirStr batchFrac (lit "CCT189") 200 43 ++
        ((pyStrDiv10 200 ++ lit " cm " ++ lit "CCT189") ++ lit ".dcm")
    rw [hrel, htr]
    rfl
  · show (pyRound (100 * (batchFrac.full_dose * (7/16 : ℚ)) /
        pyMax (batchFrac.dose_levels.map (fun r => batchFrac.full_dose * r)))).toNat = 44
    rw [hrel, hrd]
    rfl
  · show sweepDirStr batchFrac (lit "CCT189") 200
        (pyIntTrunc (100 * (batchFrac.full_dose * (7/16 : ℚ)) /
          pyMax (batchFrac.dose_levels.map (fun r => batchFrac.full_dose * r)))).toNat ≠
      sweepDirStrRound batchFrac (lit "CCT189") 200
        (100 * (batchFrac.full_dose * (7/16 : ℚ)) /
          pyMax (batchFrac.dose_levels.map (fun r => batchFrac.full_dose * r)))
    rw [hrel, htr]
    have h44 : (pyRound (175/4 : ℚ)).toNat = 44 := by rw [hrd]; rfl
    rw [sweepDirStrRound, h44]
    decide

/-- C7 (amended): every dose-sweep file of a batch run is persisted under
`root/phantom/diameter{mm}mm/dose_{pct:03d}/fbp <kernel>/<patientname>.dcm`
(with a `_NNN` repeat suffix when `nsims > 1`), where
`pct = int(100 * dose / max(dose_levels))` — Python `int` truncation, not
the claimed `round`.  The two agree exactly when the relative dose is an
integer; for fractional relative doses they differ (see the
counterexample). -/
theorem C7_sweep_path (p : BatchParams) (f : FileOut)
    (hf : f ∈ run_batch_sim p) (hkind : f.kind = .sweep) :
    f.relDose = 100 * f.doseUsed / pyMax (p.dose_levels.map (fun r => p.full_dose * r)) ∧
    (∃ i < p.nsims, f.dicom.pathStr =
      sweepDirStr p f.phantomUsed f.diameterUsed (pyIntTrunc f.relDose).toNat ++
        (if p.nsims > 1 then f.dicom.patientName ++ [ '_' ] ++ pad3 i ++ lit ".dcm"
         else f.dicom.patientName ++ lit ".dcm")) ∧
    (∀ n : ℕ, f.relDose = (n : ℚ) →
      sweepDirStr p f.phantomUsed f.diameterUsed (pyIntTrunc f.relDose).toNat =
        sweepDirStrRound p f.phantomUsed f.diameterUsed f.relDose) := by
  obtain ⟨phantom, _, pd, _, hcase⟩ := mem_run_batch_sim hf
  rcases hcase with ⟨sd, _, hsw⟩ | hnf | hgt
  · obtain ⟨i, hi, rfl⟩ := mem_sweepFiles hsw
    refine ⟨rfl, ⟨i, hi, rfl⟩, ?_⟩
    intro n hn
    show sweepDirStr p phantom pd.2 (pyIntTrunc _).toNat = sweepDirStrRound p phantom pd.2 _
    rw [hn, sweepDirStr, sweepDirStrRound, pyIntTrunc_natCast, pyRound_natCast]
  · obtain ⟨i, hi, rfl⟩ := mem_auxFile hnf
    simp at hkind
  · obtain ⟨i, hi, rfl⟩ := mem_auxFile hgt
    simp at hkind

/-- Witness for C7 (amended): the batch `batchOne` has a first file, it is a
sweep file, and the theorem yields its path decomposition. -/
theorem C7_sweep_path_witness :
    ∃ f ∈ run_batch_sim batchOne, f.kind = .sweep ∧
      (∃ i < batchOne.nsims, f.dicom.pathStr =
        sweepDirStr batchOne f.phantomUsed f.diameterUsed (pyIntTrunc f.relDose).toNat ++
          (if batchOne.nsims > 1 then f.dicom.patientName ++ [ '_' ] ++ pad3 i ++ lit ".dcm"
           else f.dicom.patientName ++ lit ".dcm")) := by
  obtain ⟨f, hf0⟩ := Option.isSome_iff_exists.1
    (show ((run_batch_sim batchOne)[0]?).isSome = true from by decide)
  have hfmem : f ∈ run_batch_sim batchOne := by
    obtain ⟨hlt, heq⟩ := List.getElem?_eq_some.1 hf0
    exact heq ▸ List.getElem_mem hlt
  have hkind : f.kind = .sweep := by
    have h : ((run_batch_sim batchOne)[0]?).map (fun g => g.kind) = some .sweep := by decide
    rw [hf0] at h
    simpa using h
  exact ⟨f, hfmem, hkind, (C7_sweep_path batchOne f hfmem hkind).2.1⟩

/-! ## Lemmas: evaluating the extractor on a constructed sweep file -/

lemma us_not_mem_pname (d : ℕ) {phantom : List Char} (Hus : '_' ∉ phantom) :
    '_' ∉ pyStrDiv10 d ++ lit " cm " ++ phantom := by
  intro hm
  rcases List.mem_append.1 hm with h1 | h1
  · rcases List.mem_append.1 h1 with h2 | h2
    · rcases mem_pyStrDiv10 d h2 with h3 | h3
      · exact absurd h3 (by decide)
      · exact absurd h3 (by decide)
    · exact absurd h2 (by decide)
  · exact Hus h1

lemma us_not_mem_pad3 (i : ℕ) : '_' ∉ pad3 i :=
  fun hm => absurd (mem_pad3_isDigit i _ hm) (by decide)

lemma slash_not_mem_pad3 (n : ℕ) : '/' ∉ pad3 n :=
  fun hm => absurd (mem_pad3_isDigit n _ hm) (by decide)

/-- Splitting an unsuffixed stem on `'_'` yields a single chunk. -/
lemma pySplit_us_pname (d : ℕ) {phantom : List Char} (Hus : '_' ∉ phantom) :
    pySplit (lit "_") (pyStrDiv10 d ++ lit " cm " ++ phantom) =
      [pyStrDiv10 d ++ lit " cm " ++ phantom] :=
  pySplit_no_sep '_' [] _ (not_infix_singleton (us_not_mem_pname d Hus))

/-- Splitting a `'_NNN'`-suffixed stem on `'_'` yields the patient name and
the padded repeat index. -/
lemma pySplit_us_suffixed (d i : ℕ) {phantom : List Char} (Hus : '_' ∉ phantom) :
    pySplit (lit "_") ((pyStrDiv10 d ++ lit " cm " ++ phantom) ++ '_' :: pad3 i) =
      [pyStrDiv10 d ++ lit " cm " ++ phantom, pad3 i] := by
  have hlit : lit "_" = ['_'] := rfl
  rw [hlit, pySplit_single_append,
    pySplit_no_sep _ _ _ (not_infix_singleton (us_not_mem_pname d Hus)),
    pySplit_no_sep _ _ _ (not_infix_singleton (us_not_mem_pad3 i))]
  rfl

/-- The chunk after `'dose_'` in a sweep path starts with the padded dose
percentage followed by `'/'`. -/
lemma dose_chunk_get (p : BatchParams) (phantom : List Char) (d pct : ℕ) (rest : List Char)
    (Hdose : ∀ i, i < (diamDirStr p phantom d).length →
      ¬ lit "dose_" <+: ((diamDirStr p phantom d ++ lit "dose_").drop i)) :
    ∃ hch, (pySplit (lit "dose_") (sweepDirStr p phantom d pct ++ rest)).get? 1 =
      some (pad3 pct ++ '/' :: hch) := by
  have hlit : lit "dose_" = 'd' :: lit "ose_" := rfl
  rw [hlit] at Hdose
  have hd' : 'd' ∉ pad3 pct ++ ['/'] := by
    intro hm
    rcases List.mem_append.1 hm with h1 | h1
    · exact absurd (mem_pad3_isDigit pct _ h1) (by decide)
    · simp at h1
  obtain ⟨hch, t, hb1, _⟩ := pySplit_append_chunk 'd' (lit "ose_") (pad3 pct ++ ['/'])
    (lit "fbp " ++ (pyReplace (lit ".") [] (pyReplace (lit ",") [] p.fbp_kernel) ++
      (lit "/" ++ rest)))
    (noStart_of_head_notMem hd' _)
  have hshape : sweepDirStr p phantom d pct ++ rest =
      diamDirStr p phantom d ++ ('d' :: lit "ose_") ++
        ((pad3 pct ++ ['/']) ++
          (lit "fbp " ++ (pyReplace (lit ".") [] (pyReplace (lit ",") [] p.fbp_kernel) ++
            (lit "/" ++ rest)))) := by
    simp only [sweepDirStr, List.append_assoc]
    rfl
  have hsplit := pySplit_around_sep 'd' (lit "ose_") (diamDirStr p phantom d)
    ((pad3 pct ++ ['/']) ++
      (lit "fbp " ++ (pyReplace (lit ".") [] (pyReplace (lit ",") [] p.fbp_kernel) ++
        (lit "/" ++ rest))))
    (fun i hi => by
      rw [List.append_assoc]
      exact noStart_extend _ Hdose i hi)
  refine ⟨hch, ?_⟩
  rw [hlit, hshape, hsplit]
  show (pySplit ('d' :: lit "ose_") _).get? 0 = _
  rw [hb1]
  simp

/-- `int()` applied to the text before the first `'/'` of the dose chunk
recovers the padded percentage. -/
lemma intparse_dose_chunk (pct : ℕ) (hch : List Char) :
    pyIntParse ((pySplit (lit "/") (pad3 pct ++ '/' :: hch)).headD []) = some pct := by
  have hlit : lit "/" = ['/'] := rfl
  rw [hlit, pySplit_single_append,
    pySplit_no_sep _ _ _ (not_infix_singleton (slash_not_mem_pad3 pct)),
    List.singleton_append, List.headD_cons]
  exact pyIntParse_pad3 pct

/-- Evaluation of the extractor when every parse step succeeds and the stem
has no underscore suffix: repeat index 0. -/
lemma dicom_meta_eval_plain (ps st pn ic afterCm afterColon : List Char) (diam : ℚ)
    (afterDose : List Char) (dose : ℕ)
    (h1 : (pySplit (lit "cm") pn).get? 1 = some afterCm)
    (h2 : (pySplit (lit ":") ic).get? 1 = some afterColon)
    (h3 : pyFloatParse afterColon = some diam)
    (hnf : ¬ lit "noisefree" <:+ st)
    (hgt : ¬ lit "groundtruth" <:+ st)
    (h4 : (pySplit (lit "dose_") ps).get? 1 = some afterDose)
    (h5 : pyIntParse ((pySplit (lit "/") afterDose).headD []) = some dose)
    (h6 : (pySplit (lit "_") st).length ≤ 1) :
    dicom_meta_to_dataframe ⟨ps, st, pn, ic⟩ =
      some { phantom := pyStrip afterCm, diameter := diam, dose := some dose
             series := lit "simulation"
             subgroup := pediatric_subgroup ((18.2 : ℝ))
             age_est := subgroup_to_age (pediatric_subgroup ((18.2 : ℝ)))
             repeatIdx := 0 } := by
  have h6' : ¬ (pySplit (lit "_") st).length > 1 := by omega
  simp only [dicom_meta_to_dataframe, h1, h2, h3, if_neg hnf, if_neg hgt, h4, h5, if_neg h6']

/-- Evaluation of the extractor when every parse step succeeds and the stem
splits at an underscore whose second chunk parses as the repeat index. -/
lemma dicom_meta_eval_rep (ps st pn ic afterCm afterColon : List Char) (diam : ℚ)
    (afterDose : List Char) (dose rep : ℕ)
    (h1 : (pySplit (lit "cm") pn).get? 1 = some afterCm)
    (h2 : (pySplit (lit ":") ic).get? 1 = some afterColon)
    (h3 : pyFloatParse afterColon = some diam)
    (hnf : ¬ lit "noisefree" <:+ st)
    (hgt : ¬ lit "groundtruth" <:+ st)
    (h4 : (pySplit (lit "dose_") ps).get? 1 = some afterDose)
    (h5 : pyIntParse ((pySplit (lit "/") afterDose).headD []) = some dose)
    (h6 : (pySplit (lit "_") st).length > 1)
    (h7 : pyIntParse ((pySplit (lit "_") st).getD 1 []) = some rep) :
    dicom_meta_to_dataframe ⟨ps, st, pn, ic⟩ =
      some { phantom := pyStrip afterCm, diameter := diam, dose := some dose
             series := lit "simulation"
             subgroup := pediatric_subgroup ((18.2 : ℝ))
             age_est := subgroup_to_age (pediatric_subgroup ((18.2 : ℝ)))
             repeatIdx := rep } := by
  simp only [dicom_meta_to_dataframe, h1, h2, h3, if_neg hnf, if_neg hgt, h4, h5,
    if_pos h6, h7]

/-- The extractor on an unsuffixed sweep file (single repeat): it recovers
the phantom, the diameter in cm, and the truncated dose percentage `pct`
embedded in the path, with repeat index 0. -/
lemma extract_sweep_plain (p : BatchParams) (phantom : List Char) (d pct : ℕ)
    (Hcm : ¬ lit "cm" <:+: (' ' :: phantom))
    (Hstrip : pyStrip phantom = phantom)
    (Hus : '_' ∉ phantom)
    (Hnf : ¬ lit "noisefree" <:+ (pyStrDiv10 d ++ lit " cm " ++ phantom))
    (Hgt : ¬ lit "groundtruth" <:+ (pyStrDiv10 d ++ lit " cm " ++ phantom))
    (Hdose : ∀ i, i < (diamDirStr p phantom d).length →
      ¬ lit "dose_" <+: ((diamDirStr p phantom d ++ lit "dose_").drop i)) :
    dicom_meta_to_dataframe
      { pathStr := sweepDirStr p phantom d pct ++
          ((pyStrDiv10 d ++ lit " cm " ++ phantom) ++ lit ".dcm")
        stem := pathStem ((pyStrDiv10 d ++ lit " cm " ++ phantom) ++ lit ".dcm")
        patientName := pyStrDiv10 d ++ lit " cm " ++ phantom
        imageComments := lit "effctive diameter [cm]: " ++ pyStrDiv10 d } =
      some { phantom := phantom, diameter := (d : ℚ) / 10, dose := some pct
             series := lit "simulation"
             subgroup := pediatric_subgroup ((18.2 : ℝ))
             age_est := subgroup_to_age (pediatric_subgroup ((18.2 : ℝ)))
             repeatIdx := 0 } := by
  have hstem : pathStem ((pyStrDiv10 d ++ lit " cm " ++ phantom) ++ lit ".dcm") =
      pyStrDiv10 d ++ lit " cm " ++ phantom := by
    rw [show (pyStrDiv10 d ++ lit " cm " ++ phantom) ++ lit ".dcm" =
      (pyStrDiv10 d ++ lit " cm " ++ phantom) ++ '.' :: lit "dcm" from rfl]
    exact pathStem_concat _ _ (by decide)
  have h1 : (pySplit (lit "cm") (pyStrDiv10 d ++ lit " cm " ++ phantom)).get? 1 =
      some (' ' :: phantom) := by
    rw [patientName_split d phantom Hcm]
    rfl
  have h2 : (pySplit (lit ":") (lit "effctive diameter [cm]: " ++ pyStrDiv10 d)).get? 1 =
      some (' ' :: pyStrDiv10 d) := by
    rw [imageComments_split d]
    rfl
  have hstrip2 : pyStrip (' ' :: phantom) = phantom := by
    rw [pyStrip_cons_space, Hstrip]
  obtain ⟨hch, hdose1⟩ := dose_chunk_get p phantom d pct
    ((pyStrDiv10 d ++ lit " cm " ++ phantom) ++ lit ".dcm") Hdose
  have hparts := pySplit_us_pname d Hus
  have hnf' : ¬ lit "noisefree" <:+
      pathStem ((pyStrDiv10 d ++ lit " cm " ++ phantom) ++ lit ".dcm") := by
    rw [hstem]; exact Hnf
  have hgt' : ¬ lit "groundtruth" <:+
      pathStem ((pyStrDiv10 d ++ lit " cm " ++ phantom) ++ lit ".dcm") := by
    rw [hstem]; exact Hgt
  have h6 : (pySplit (lit "_")
      (pathStem ((pyStrDiv10 d ++ lit " cm " ++ phantom) ++ lit ".dcm"))).length ≤ 1 := by
    rw [hstem, hparts]
    simp
  rw [dicom_meta_eval_plain
    (sweepDirStr p phantom d pct ++ ((pyStrDiv10 d ++ lit " cm " ++ phantom) ++ lit ".dcm"))
    (pathStem ((pyStrDiv10 d ++ lit " cm " ++ phantom) ++ lit ".dcm"))
    (pyStrDiv10 d ++ lit " cm " ++ phantom)
    (lit "effctive diameter [cm]: " ++ pyStrDiv10 d)
    (' ' :: phantom) (' ' :: pyStrDiv10 d) ((d : ℚ) / 10)
    (pad3 pct ++ '/' :: hch) pct
    h1 h2 (pyFloatParse_strDiv10 d) hnf' hgt' hdose1 (intparse_dose_chunk pct hch) h6]
  rw [hstrip2]

/-- The extractor on a `'_NNN'`-suffixed sweep file (multiple repeats): it
recovers the phantom, the diameter in cm, the truncated dose percentage
`pct` embedded in the path, and the repeat index `i`. -/
lemma extract_sweep_suffixed (p : BatchParams) (phantom : List Char) (d pct i : ℕ)
    (Hcm : ¬ lit "cm" <:+: (' ' :: phantom))
    (Hstrip : pyStrip phantom = phantom)
    (Hus : '_' ∉ phantom)
    (Hdose : ∀ j, j < (diamDirStr p phantom d).length →
      ¬ lit "dose_" <+: ((diamDirStr p phantom d ++ lit "dose_").drop j)) :
    dicom_meta_to_dataframe
      { pathStr := sweepDirStr p phantom d pct ++
          ((pyStrDiv10 d ++ lit " cm " ++ phantom) ++ [ '_' ] ++ pad3 i ++ lit ".dcm")
        stem := pathStem ((pyStrDiv10 d ++ lit " cm " ++ phantom) ++ [ '_' ] ++ pad3 i ++ lit ".dcm")
        patientName := pyStrDiv10 d ++ lit " cm " ++ phantom
        imageComments := lit "effctive diameter [cm]: " ++ pyStrDiv10 d } =
      some { phantom := phantom, diameter := (d : ℚ) / 10, dose := some pct
             series := lit "simulation"
             subgroup := pediatric_subgroup ((18.2 : ℝ))
             age_est := subgroup_to_age (pediatric_subgroup ((18.2 : ℝ)))
             repeatIdx := i } := by
  have hfn : (pyStrDiv10 d ++ lit " cm " ++ phantom) ++ [ '_' ] ++ pad3 i ++ lit ".dcm" =
      ((pyStrDiv10 d ++ lit " cm " ++ phantom) ++ '_' :: pad3 i) ++ '.' :: lit "dcm" := by
    simp only [List.append_assoc, List.cons_append, List.singleton_append, List.nil_append]
    rfl
  have hstem : pathStem ((pyStrDiv10 d ++ lit " cm " ++ phantom) ++ [ '_' ] ++ pad3 i ++
      lit ".dcm") = (pyStrDiv10 d ++ lit " cm " ++ phantom) ++ '_' :: pad3 i := by
    rw [hfn]
    exact pathStem_concat _ _ (by decide)
  have hlast : ((pyStrDiv10 d ++ lit " cm " ++ phantom) ++ '_' :: pad3 i).getLast? =
      (pad3 i).getLast? :=
    getLast?_of_suffix ⟨(pyStrDiv10 d ++ lit " cm " ++ phantom) ++ ['_'], by simp⟩
      (pad3_ne_nil i)
  have hnfS : ¬ lit "noisefree" <:+
      ((pyStrDiv10 d ++ lit " cm " ++ phantom) ++ '_' :: pad3 i) := by
    intro h
    have h1 := getLast?_of_suffix h (by decide)
    have h2 : (pad3 i).getLast? = some 'e' := by rw [← hlast, h1]; rfl
    exact absurd (mem_pad3_isDigit i 'e' (mem_of_getLast?_eq h2)) (by decide)
  have hgtS : ¬ lit "groundtruth" <:+
      ((pyStrDiv10 d ++ lit " cm " ++ phantom) ++ '_' :: pad3 i) := by
    intro h
    have h1 := getLast?_of_suffix h (by decide)
    have h2 : (pad3 i).getLast? = some 'h' := by rw [← hlast, h1]; rfl
    exact absurd (mem_pad3_isDigit i 'h' (mem_of_getLast?_eq h2)) (by decide)
  have h1 : (pySplit (lit "cm") (pyStrDiv10 d ++ lit " cm " ++ phantom)).get? 1 =
      some (' ' :: phantom) := by
    rw [patientName_split d phantom Hcm]
    rfl
  have h2 : (pySplit (lit ":") (lit "effctive diameter [cm]: " ++ pyStrDiv10 d)).get? 1 =
      some (' ' :: pyStrDiv10 d) := by
    rw [imageComments_split d]
    rfl
  have hstrip2 : pyStrip (' ' :: phantom) = phantom := by
    rw [pyStrip_cons_space, Hstrip]
  obtain ⟨hch, hdose1⟩ := dose_chunk_get p phantom d pct
    ((pyStrDiv10 d ++ lit " cm " ++ phantom) ++ [ '_' ] ++ pad3 i ++ lit ".dcm") Hdose
  have hparts := pySplit_us_suffixed d i Hus
  have hnf' : ¬ lit "noisefree" <:+ pathStem
      ((pyStrDiv10 d ++ lit " cm " ++ phantom) ++ [ '_' ] ++ pad3 i ++ lit ".dcm") := by
    rw [hstem]; exact hnfS
  have hgt' : ¬ lit "groundtruth" <:+ pathStem
      ((pyStrDiv10 d ++ lit " cm " ++ phantom) ++ [ '_' ] ++ pad3 i ++ lit ".dcm") := by
    rw [hstem]; exact hgtS
  have h6 : (pySplit (lit "_") (pathStem ((pyStrDiv10 d ++ lit " cm " ++ phantom) ++
      [ '_' ] ++ pad3 i ++ lit ".dcm"))).length > 1 := by
    rw [hstem, hparts]
    simp
  have h7 : pyIntParse ((pySplit (lit "_") (pathStem ((pyStrDiv10 d ++ lit " cm " ++ phantom) ++
      [ '_' ] ++ pad3 i ++ lit ".dcm"))).getD 1 []) = some i := by
    rw [hstem, hparts]
    exact pyIntParse_pad3 i
  rw [dicom_meta_eval_rep
    (sweepDirStr p phantom d pct ++
      ((pyStrDiv10 d ++ lit " cm " ++ phantom) ++ [ '_' ] ++ pad3 i ++ lit ".dcm"))
    (pathStem ((pyStrDiv10 d ++ lit " cm " ++ phantom) ++ [ '_' ] ++ pad3 i ++ lit ".dcm"))
    (pyStrDiv10 d ++ lit " cm " ++ phantom)
    (lit "effctive diameter [cm]: " ++ pyStrDiv10 d)
    (' ' :: phantom) (' ' :: pyStrDiv10 d) ((d : ℚ) / 10)
    (pad3 pct ++ '/' :: hch) pct i
    h1 h2 (pyFloatParse_strDiv10 d) hnf' hgt' hdose1 (intparse_dose_chunk pct hch) h6 h7]
  rw [hstrip2]

/-- Counterexample for C3: in the batch `batchFrac` the low dose fraction
7/16 gives the exact relative dose 43.75%, but the extractor recovers the
truncated value 43 from the path — the dose percentage used to construct
the file is not recovered exactly. -/
theorem C3_dose_roundtrip_cex :
    ∃ f ∈ run_batch_sim batchFrac, f.kind = .sweep ∧ f.relDose = 175/4 ∧
      ∃ r, dicom_meta_to_dataframe f.dicom = some r ∧
        r.phantom = f.phantomUsed ∧ r.diameter = (f.diameterUsed : ℚ) / 10 ∧
        r.dose = some 43 ∧ (43 : ℚ) ≠ f.relDose := by
  have hmax : pyMax (batchFrac.dose_levels.map (fun r => batchFrac.full_dose * r)) = 300000 := by
    norm_num [pyMax, batchFrac, max_def]
  have hrel : 100 * (batchFrac.full_dose * (7/16 : ℚ)) /
      pyMax (batchFrac.dose_levels.map (fun r => batchFrac.full_dose * r)) = 175/4 := by
    rw [hmax]; norm_num [batchFrac]
  have hfl : ⌊(175/4 : ℚ)⌋ = (43 : ℤ) := by
    rw [Int.floor_eq_iff]
    norm_num
  have htr : pyIntTrunc (175/4 : ℚ) = 43 := by
    rw [pyIntTrunc, if_neg (by norm_num), hfl]
  have hsd : ((0 : ℕ), batchFrac.full_dose * (7/16 : ℚ)) ∈
      (batchFrac.dose_levels.map (fun r => batchFrac.full_dose * r)).enum := by
    simp [batchFrac, List.enum]
  refine ⟨_, sweep_mem_run_batch_sim (List.mem_singleton.2 rfl)
      (show ((0 : ℕ), (200 : ℕ)) ∈ batchFrac.diameters.enum by decide) hsd
      (sweepFiles_mem_intro batchFrac (lit "CCT189") 200 0
        (pyStrDiv10 200 ++ lit " cm " ++ lit "CCT189") 0
        (batchFrac.full_dose * (7/16))
        (100 * (batchFrac.full_dose * (7/16)) /
          pyMax (batchFrac.dose_levels.map (fun r => batchFrac.full_dose * r)))
        0 (by decide)), rfl, hrel, ?_⟩
  refine ⟨_, extract_sweep_plain batchFrac (lit "CCT189") 200 _
    (by decide) (by decide) (by decide) (by decide) (by decide) (by decide),
    rfl, rfl, ?_, ?_⟩
  · show some (pyIntTrunc (100 * (batchFrac.full_dose * (7/16 : ℚ)) /
        pyMax (batchFrac.dose_levels.map (fun r => batchFrac.full_dose * r)))).toNat = some 43
    rw [hrel, htr]
    rfl
  · show (43 : ℚ) ≠ 100 * (batchFrac.full_dose * (7/16 : ℚ)) /
        pyMax (batchFrac.dose_levels.map (fun r => batchFrac.full_dose * r))
    rw [hrel]
    norm_num

/-- C3 (amended): for every dose-sweep file persisted by the batch
orchestrator (under mild non-degeneracy side conditions on the phantom
name and the output root — no `'cm'` inside the space-prefixed phantom
name, no surrounding whitespace, no underscore, the unsuffixed stem does
not end in `'noisefree'`/`'groundtruth'`, and no spurious `'dose_'`
occurrence starts inside the diameter directory prefix), the metadata
extractor succeeds and recovers exactly the phantom kind and the patient
diameter in cm, but the dose it recovers is the truncated percentage
`int(100 * dose / max(dose_levels))` from the path — equal to the exact
percentage only when that percentage is an integer. -/
theorem C3_metadata_roundtrip (p : BatchParams) (f : FileOut)
    (hf : f ∈ run_batch_sim p) (hkind : f.kind = .sweep)
    (Hcm : ¬ lit "cm" <:+: (' ' :: f.phantomUsed))
    (Hstrip : pyStrip f.phantomUsed = f.phantomUsed)
    (Hus : '_' ∉ f.phantomUsed)
    (Hnf : ¬ lit "noisefree" <:+ (pyStrDiv10 f.diameterUsed ++ lit " cm " ++ f.phantomUsed))
    (Hgt : ¬ lit "groundtruth" <:+ (pyStrDiv10 f.diameterUsed ++ lit " cm " ++ f.phantomUsed))
    (Hdose : ∀ i, i < (diamDirStr p f.phantomUsed f.diameterUsed).length →
      ¬ lit "dose_" <+: ((diamDirStr p f.phantomUsed f.diameterUsed ++ lit "dose_").drop i)) :
    ∃ r, dicom_meta_to_dataframe f.dicom = some r ∧
      r.phantom = f.phantomUsed ∧
      r.diameter = (f.diameterUsed : ℚ) / 10 ∧
      r.dose = some (pyIntTrunc f.relDose).toNat ∧
      r.series = lit "simulation" ∧
      (∀ n : ℕ, f.relDose = (n : ℚ) → r.dose = some n) := by
  obtain ⟨phantom, _, pd, _, hcase⟩ := mem_run_batch_sim hf
  rcases hcase with ⟨sd, _, hsw⟩ | hnfm | hgtm
  · obtain ⟨i, hi, rfl⟩ := mem_sweepFiles hsw
    by_cases hn : p.nsims > 1
    · simp only [if_pos hn]
      refine ⟨_, extract_sweep_suffixed p phantom pd.2 _ i Hcm Hstrip Hus Hdose,
        rfl, rfl, rfl, rfl, ?_⟩
      intro n hrel
      show some (pyIntTrunc _).toNat = some n
      rw [hrel, pyIntTrunc_natCast, Int.toNat_natCast]
    · simp only [if_neg hn]
      refine ⟨_, extract_sweep_plain p phantom pd.2 _ Hcm Hstrip Hus Hnf Hgt Hdose,
        rfl, rfl, rfl, rfl, ?_⟩
      intro n hrel
      show some (pyIntTrunc _).toNat = some n
      rw [hrel, pyIntTrunc_natCast, Int.toNat_natCast]
  · obtain ⟨i, hi, rfl⟩ := mem_auxFile hnfm
    simp at hkind
  · obtain ⟨i, hi, rfl⟩ := mem_auxFile hgtm
    simp at hkind

/-- Witness for C3 (amended): on the first file of the batch `batchOne`
(integral dose percentages) the theorem applies and the extractor recovers
the phantom, the diameter 11.2 cm and the dose. -/
theorem C3_metadata_roundtrip_witness :
    ∃ f ∈ run_batch_sim batchOne, ∃ r, dicom_meta_to_dataframe f.dicom = some r ∧
      r.phantom = f.phantomUsed ∧ r.diameter = (f.diameterUsed : ℚ) / 10 ∧
      r.dose = some (pyIntTrunc f.relDose).toNat ∧ r.series = lit "simulation" := by
  obtain ⟨f, hf0⟩ := Option.isSome_iff_exists.1
    (show ((run_batch_sim batchOne)[0]?).isSome = true from by decide)
  have hfmem : f ∈ run_batch_sim batchOne := by
    obtain ⟨hlt, heq⟩ := List.getElem?_eq_some.1 hf0
    exact heq ▸ List.getElem_mem hlt
  have hkind : f.kind = .sweep := by
    have h : ((run_batch_sim batchOne)[0]?).map (fun g => g.kind) = some .sweep := by decide
    rw [hf0] at h
    simpa using h
  have hph : f.phantomUsed = lit "CCT189" := by
    have h : ((run_batch_sim batchOne)[0]?).map (fun g => g.phantomUsed) =
        some (lit "CCT189") := by decide
    rw [hf0] at h
    simpa using h
  have hdm : f.diameterUsed = 112 := by
    have h : ((run_batch_sim batchOne)[0]?).map (fun g => g.diameterUsed) = some 112 := by
      decide
    rw [hf0] at h
    simpa using h
  obtain ⟨r, hr, hrp, hrd, hrdose, hrs, _⟩ := C3_metadata_roundtrip batchOne f hfmem hkind
    (by rw [hph]; decide) (by rw [hph]; decide) (by rw [hph]; decide)
    (by rw [hph, hdm]; decide) (by rw [hph, hdm]; decide) (by rw [hph, hdm]; decide)
  exact ⟨f, hfmem, r, hr, hrp, hrd, hrdose, hrs⟩

end PedIQ
